import Mathlib

/-!
Verification development for the cozyquiz backend round-orchestration engine
(`backend/src` main server file: game state, wagering ledger, buzzer arbiter,
timer, idempotency guard, persistence snapshotter).

The JavaScript source is shallowly embedded: the process-wide `state` object
and the `teams` map become a `Sys` structure, each `game.*` method and each
socket handler becomes a pure function `Sys → ... → Sys`.  JavaScript numbers
holding coins, stakes and pots become `Int` (all arithmetic on them in the
source is integer arithmetic: `Math.floor`, `Math.max`, `+`, `-`);
epoch-millisecond timestamps become `Nat`; `null`/`undefined` become
`Option`.  `Date.now()` is passed in as an explicit `now : Nat` argument.
Socket emissions (`io.emit`, `socket.emit`) are side effects invisible to the
game state and are dropped; where a branch of the source only emits (the late
buzz information message), the embedded function returns the state unchanged.
-/

namespace CozyQuiz

/-- Allowed base stakes, `const VALID_STAKES = [0, 3, 6]`. -/
def VALID_STAKES : List Int := [0, 3, 6]

/-- Rounds per category, `const ROUNDS_PER_CATEGORY = 3`. -/
def ROUNDS_PER_CATEGORY : Nat := 3

/-- Idempotency window, `const IDEMP_WINDOW_MS = 10_000`. -/
def IDEMP_WINDOW_MS : Nat := 10000

/-- Elch answer window after first buzz; the env override is absent by
default, so this models the default `45_000` ms. -/
def ELCH_ANSWER_WINDOW_MS : Nat := 45000

/-- Grace interval for late submissions after natural timer expiry,
`const GRACE_MS = 300` (local to `teamSubmit`). -/
def GRACE_MS : Nat := 300

/-- Entry of the `teams` map: `{ id, name, avatar, coins, quizJoker, joinedAt }`. -/
structure Team where
  id : String
  name : String
  avatar : String
  coins : Int
  quizJoker : Int
  joinedAt : Nat
deriving Repr, DecidableEq

/-- Entry of `state.stakes`: `{ stake, useJoker }`. -/
structure StakeEntry where
  stake : Int
  useJoker : Bool
deriving Repr, DecidableEq

/-- The `state.elch` sub-object.  `phase` and `buzzAnswerEndsAt` are
`Option` because `adminResetAll` rebuilds the object without those keys
(leaving them `undefined`, modelled as `none`). -/
structure ElchState where
  category : Option String
  used : List String
  buzzOrder : List (String × Nat)
  buzzLocked : Bool
  exhausted : Bool
  phase : Option String
  buzzAnswerEndsAt : Option Nat
deriving Repr, DecidableEq

/-- The record stored in `state.pendingResult` / `state.lastResult` by
`adminResolveRound`.  The source field `at` is renamed `atMs` (`at` is a
reserved word in Lean). -/
structure ResolutionRecord where
  winnerId : Option String
  winnerIds : List String
  category : Option String
  roundIndex : Nat
  payout : Int
  carry : Int
  tiePayouts : Option (List (String × Int))
  carriedAmount : Int
  atMs : Nat
deriving Repr, DecidableEq

/-- One stored submission `state.submissions[teamId]`.  The per-category
payload normalization (Bär estimate, Wal bid clamping, Robbe percentage
rescaling) only rewrites the stored payload contents and is abstracted into
an opaque `payload` blob; no claim inspects payload contents. -/
structure Submission where
  payload : String
  ts : Nat
deriving Repr, DecidableEq

/-- The process-wide `state` object. -/
structure GameState where
  phase : String
  currentCategory : Option String
  roundIndex : Nat
  stakes : List (String × StakeEntry)
  categoryPot : Int
  carryRound : Int
  submissions : List (String × Submission)
  fuchsHistory : List (String × List (String × Nat))
  joinCode : Option String
  teamLimit : Int
  timerEndsAt : Option Nat
  timerDuration : Int
  timerPausedRemaining : Int
  lastTimerEnd : Option Nat
  elch : ElchState
  raceMode : String
  roundWins : List (String × Int)
  resolvedRounds : List String
  categoryEarnings : List (String × Int)
  pendingResult : Option ResolutionRecord
  lastResult : Option ResolutionRecord
deriving Repr, DecidableEq

/-- The full mutable server state: `state` plus the `teams` map.  The map is
modelled as a list of teams in insertion order (JavaScript `Map` preserves
insertion order and keys are unique). -/
structure Sys where
  st : GameState
  teams : List Team
deriving Repr, DecidableEq

/-! Association-list helpers modelling plain JavaScript objects used as
string-keyed maps (`state.stakes`, `state.roundWins`, ...).  Object keys are
unique; `aset` overwrites in place or appends, matching `obj[k] = v`. -/

/-- Lookup `obj[k]` (as `Option`). -/
def alookup {α : Type} (m : List (String × α)) (k : String) : Option α :=
  (m.find? (fun p => p.1 == k)).map (fun p => p.2)

/-- Assignment `obj[k] = v`. -/
def aset {α : Type} (m : List (String × α)) (k : String) (v : α) : List (String × α) :=
  if m.any (fun p => p.1 == k) then m.map (fun p => if p.1 == k then (k, v) else p)
  else m ++ [(k, v)]

/-- Deletion `delete obj[k]`. -/
def aerase {α : Type} (m : List (String × α)) (k : String) : List (String × α) :=
  m.filter (fun p => p.1 != k)

/-! Helpers for the `teams` map. -/

/-- The `teams.get(id)` lookup. -/
def getTeam (ts : List Team) (id : String) : Option Team :=
  ts.find? (fun t => t.id == id)

/-- The `teams.has(id)` test. -/
def hasTeam (ts : List Team) (id : String) : Bool :=
  (getTeam ts id).isSome

/-- In-place mutation of the team with the given id (JavaScript mutates the
object held in the `Map`; keys are unique, so this rewrites one entry). -/
def updateTeam (ts : List Team) (id : String) (f : Team → Team) : List Team :=
  ts.map (fun t => if t.id == id then f t else t)

/-- The `teams.delete(id)` removal. -/
def removeTeam (ts : List Team) (id : String) : List Team :=
  ts.filter (fun t => t.id != id)

/-- Category normalization, `normalizeCategory`: legacy mojibake variants of
the umlaut category name map to the canonical form. -/
def normalizeCategory (c : String) : String :=
  if c = "BÃ¤r" ∨ c = "Baer" ∨ c = "B??r" then "Bär" else c

/-- Lift of `normalizeCategory` over nullable categories (`if(!cat) return cat`). -/
def normCatOpt (c : Option String) : Option String :=
  c.map normalizeCategory

/-- Round key, `roundKeyFor(category, roundIdx)`: null for a missing (falsy
non-zero) category, else the string `category:roundIdx`. -/
def roundKeyFor (category : Option String) (roundIdx : Nat) : Option String :=
  match category with
  | none => none
  | some c => if c = "" then none else some (c ++ ":" ++ toString roundIdx)

/-- The `currentRoundKey()` helper. -/
def currentRoundKey (s : GameState) : Option String :=
  roundKeyFor s.currentCategory s.roundIndex

/-- The `isRoundResolved()` helper on the current round key. -/
def isRoundResolved (s : GameState) : Bool :=
  match currentRoundKey s with
  | none => false
  | some k => s.resolvedRounds.contains k

/-- The `markRoundResolved(flag)` helper.  `state.resolvedRounds` is an
object used as a set of round keys; setting inserts the key (object keys
stay unique), clearing deletes it. -/
def markRoundResolved (s : GameState) (flag : Bool) : GameState :=
  match currentRoundKey s with
  | none => s
  | some k =>
      if flag then
        { s with resolvedRounds :=
            if s.resolvedRounds.contains k then s.resolvedRounds
            else s.resolvedRounds ++ [k] }
      else
        { s with resolvedRounds := s.resolvedRounds.filter (fun r => r != k) }

/-- Initial `state.elch` literal. -/
def initElch : ElchState :=
  { category := none, used := [], buzzOrder := [], buzzLocked := false,
    exhausted := false, phase := some "IDLE", buzzAnswerEndsAt := none }

/-- The initial `state` literal. -/
def initState : GameState :=
  { phase := "LOBBY", currentCategory := none, roundIndex := 0, stakes := [],
    categoryPot := 0, carryRound := 0, submissions := [], fuchsHistory := [],
    joinCode := none, teamLimit := 3, timerEndsAt := none, timerDuration := 0,
    timerPausedRemaining := 0, lastTimerEnd := none, elch := initElch,
    raceMode := "POST", roundWins := [], resolvedRounds := [],
    categoryEarnings := [], pendingResult := none, lastResult := none }

/-- The initial `Sys`: fresh state, empty team registry. -/
def initSys : Sys := { st := initState, teams := [] }

/-- The `AVATAR_POOL` constant. -/
def AVATAR_POOL : List String :=
  ["/avatars/seekuh.png", "/avatars/waschbaer.png", "/avatars/roter_panda.png",
   "/avatars/igel.png", "/avatars/faultier.png", "/avatars/einhorn.png",
   "/avatars/eichhoernchen.png", "/avatars/capybara.png", "/avatars/wombat.png",
   "/avatars/koala.png", "/avatars/alpaka.png", "/avatars/pinguin.png",
   "/avatars/otter.png", "/avatars/giraffe.png", "/avatars/eisbaer.png",
   "/avatars/drache.png", "/avatars/katze.png", "/avatars/hund.png",
   "/avatars/teamjenny.png", "/avatars/teamjana.png", "/avatars/teammartin.png"]

/-- Whitespace trimming, modelling `String.prototype.trim()` (drop leading
and trailing whitespace).  Defined over the character list so that it is
fully executable (the library `String.trim` does not reduce). -/
def jsTrim (s : String) : String :=
  String.mk ((s.toList.dropWhile Char.isWhitespace).reverse.dropWhile Char.isWhitespace).reverse

/-- The `game.teamJoin` method.  `id` is the result of `ensureTeam(socket)`
(the client auth team id or the socket id); `name` and `avatar` are the
nullable payload fields. -/
def teamJoin (sys : Sys) (id : String) (name : Option String)
    (avatar : Option String) (now : Nat) : Sys :=
  let cleanName := jsTrim (name.getD "")
  let avatar1 := match avatar with
    | some a => some (if a.startsWith "/" then a else "/" ++ a)
    | none => none
  let isValid := match avatar1 with
    | some a => AVATAR_POOL.contains a
    | none => false
  let taken := sys.teams.map (fun t => t.avatar)
  match getTeam sys.teams id with
  | none =>
      let finalAvatar :=
        match avatar1 with
        | some a =>
            if isValid ∧ ¬ taken.contains a then a
            else ((AVATAR_POOL.find? (fun a => ¬ taken.contains a)).getD
                    (AVATAR_POOL.headD ""))
        | none => ((AVATAR_POOL.find? (fun a => ¬ taken.contains a)).getD
                    (AVATAR_POOL.headD ""))
      let newTeam : Team :=
        { id := id,
          name := if cleanName = "" then "Team " ++ toString (sys.teams.length + 1)
                  else cleanName,
          avatar := finalAvatar, coins := 24, quizJoker := 1, joinedAt := now }
      { sys with teams := sys.teams ++ [newTeam] }
  | some _ =>
      let sys1 :=
        if cleanName ≠ "" then
          { sys with teams := updateTeam sys.teams id (fun t => { t with name := cleanName }) }
        else sys
      match avatar1 with
      | some a =>
          if isValid ∧ ¬ taken.contains a then
            { sys1 with teams := updateTeam sys1.teams id (fun t => { t with avatar := a }) }
          else sys1
      | none => sys1

/-- The `game.teamSetStake` method.  A malformed (non-numeric) `stake`
payload value becomes `NaN`, which is not in the allowed set and is treated
like any other invalid amount, so the argument is modelled as an `Int`. -/
def teamSetStake (sys : Sys) (id : String) (stake : Int) (useJoker : Bool) : Sys :=
  if sys.st.phase ≠ "STAKE" then sys
  else
    match getTeam sys.teams id with
    | none => sys
    | some t =>
        let dynamicValid : List Int :=
          if sys.st.teamLimit > 2 then [0, 3, 6, 9] else [0, 3, 6]
        let s1 := if dynamicValid.contains stake then stake else 0
        let s2 := if t.coins < 3 ∧ s1 > 0 then 0 else s1
        let allowJoker := useJoker ∧ t.quizJoker > 0 ∧ s2 > 0
        let stakes1 := aset sys.st.stakes id { stake := s2, useJoker := allowJoker }
        { sys with st := { sys.st with stakes := stakes1 } }

/-- Payload of `game.teamSubmit`: the Elch buzz marker `{ buzz: true }` or
any other (category-specific) payload, abstracted to a blob. -/
inductive SubmitPayload where
  | buzz : SubmitPayload
  | blob : String → SubmitPayload
deriving Repr, DecidableEq

/-- The timer grace check at the top of `teamSubmit`: a submission is
dropped when the timer was active, has naturally expired, and the submission
arrives more than `GRACE_MS` after the recorded expiry. -/
def graceBlocked (st : GameState) (now : Nat) : Bool :=
  match st.timerEndsAt, st.lastTimerEnd with
  | none, some te => decide (0 < st.timerDuration) && decide (GRACE_MS < now - te)
  | _, _ => false

/-- The Elch buzz branch of `teamSubmit`.  The first accepted buzz locks the
buzzer, moves the Elch phase to LOCK and opens the answer window; a buzz
after the lock only emits a private informational message (no state change);
a repeat buzz from a team already in the buzz order is ignored. -/
def elchBuzz (sys : Sys) (id : String) (now : Nat) : Sys :=
  match sys.st.elch.category with
  | none => sys
  | some c =>
      if c = "" then sys
      else
        let already := sys.st.elch.buzzOrder.any (fun e => e.1 == id)
        if ¬ sys.st.elch.buzzLocked ∧ ¬ already then
          let newOrder := sys.st.elch.buzzOrder ++ [(id, now)]
          let e1 := { sys.st.elch with buzzOrder := newOrder }
          let window1 :=
            match e1.buzzAnswerEndsAt with
            | none => some (now + ELCH_ANSWER_WINDOW_MS)
            | some x => some x
          let e2 :=
            if newOrder.length = 1 then
              { e1 with buzzLocked := true, phase := some "LOCK", buzzAnswerEndsAt := window1 }
            else e1
          { sys with st := { sys.st with elch := e2 } }
        else sys

/-- Storage of a non-buzz submission: `{ ...prev, ...payload, ts: Date.now() }`
overwrites the team's single stored submission.  The numeric payload
normalization for Bär/Wal/Robbe only rewrites the payload contents and is
abstracted into the blob. -/
def storeSubmission (sys : Sys) (id : String) (payload : SubmitPayload) (now : Nat) : Sys :=
  let blobOf : SubmitPayload → String := fun p =>
    match p with
    | .buzz => "buzz"
    | .blob s => s
  let subs1 := aset sys.st.submissions id { payload := blobOf payload, ts := now }
  { sys with st := { sys.st with submissions := subs1 } }

/-- The `game.teamSubmit` method. -/
def teamSubmit (sys : Sys) (category : String) (id : String)
    (payload : SubmitPayload) (now : Nat) : Sys :=
  let normCat := normalizeCategory category
  if ¬ (sys.st.phase = "CATEGORY" ∧ normCatOpt sys.st.currentCategory = some normCat) then sys
  else if graceBlocked sys.st now then sys
  else if normCat = "Elch" ∧ payload = SubmitPayload.buzz then elchBuzz sys id now
  else storeSubmission sys id payload now

/-- The `game.adminTeamUpdate` method: patches the named team.  Any numeric
`coins` value is assigned directly (no clamping in the source). -/
def adminTeamUpdate (sys : Sys) (id : String) (coins : Option Int)
    (quizJoker : Option Int) (name : Option String) (avatar : Option String) : Sys :=
  match getTeam sys.teams id with
  | none => sys
  | some _ =>
      let f : Team → Team := fun t =>
        let t1 := match coins with | some c => { t with coins := c } | none => t
        let t2 := match quizJoker with | some j => { t1 with quizJoker := j } | none => t1
        let t3 := match name with | some n => { t2 with name := n } | none => t2
        match avatar with | some a => { t3 with avatar := a } | none => t3
      { sys with teams := updateTeam sys.teams id f }

/-- The `game.adminTeamKick` method: removes the team and scrubs its
stakes, submissions, earnings, round wins, and Elch buzz-order entries. -/
def adminTeamKick (sys : Sys) (id : String) : Sys :=
  if id = "" ∨ ¬ hasTeam sys.teams id then sys
  else
    let st1 :=
      { sys.st with
        stakes := aerase sys.st.stakes id,
        submissions := aerase sys.st.submissions id,
        categoryEarnings := aerase sys.st.categoryEarnings id,
        roundWins := aerase sys.st.roundWins id,
        elch := { sys.st.elch with buzzOrder := sys.st.elch.buzzOrder.filter (fun b => b.1 != id) } }
    { st := st1, teams := removeTeam sys.teams id }

/-- Fixed Elch draw table (`fixed` array repeated in `adminStartCategory`,
`adminRoundNext`, `adminRoundPrev` and `adminElchDraw`); the lookup falls
back to the first row (`fixed.find(...) || fixed[0]`). -/
def elchFixed (round : Nat) : String × String :=
  match round with
  | 0 => ("Städte", "Berufe")
  | 1 => ("Tiere", "Marken")
  | 2 => ("Länder", "Dinge aus der Küche")
  | _ => ("Städte", "Berufe")

/-- The primary-with-fallback Elch draw block inlined identically in
`adminStartCategory`, `adminRoundNext` and `adminRoundPrev`: pick the
primary label for the round, fall back to the alternate if used, and mark
exhaustion when both are used. -/
def elchRedraw (st : GameState) : GameState :=
  let cfg := elchFixed st.roundIndex
  let pick := if st.elch.used.contains cfg.1 then cfg.2 else cfg.1
  if st.elch.used.contains pick then
    { st with elch := { st.elch with exhausted := true, category := none, phase := some "LOCK" } }
  else
    { st with elch :=
      { st.elch with
        category := some pick, used := st.elch.used ++ [pick],
        phase := some "BUZZ_READY", buzzAnswerEndsAt := none } }

/-- The `game.adminStartCategory` method: moves to STAKE, resets the
per-category books, re-initializes the Elch sub-state, and performs the
fixed round-0 Elch draw when the Elch category itself is started. -/
def adminStartCategory (sys : Sys) (category : Option String) : Sys :=
  let st1 :=
    { sys.st with
      phase := "STAKE", currentCategory := normCatOpt category,
      roundIndex := 0, stakes := [], categoryPot := 0, carryRound := 0,
      submissions := [], roundWins := [], categoryEarnings := [],
      resolvedRounds := [], elch := initElch }
  let st2 := if category = some "Elch" then elchRedraw st1 else st1
  { sys with st := st2 }

/-- The `game.adminSetTeamLimit` method: clamps the limit into `[2, 5]`. -/
def adminSetTeamLimit (sys : Sys) (limit : Int) : Sys :=
  let n := max 2 (min 5 limit)
  if n ≠ sys.st.teamLimit then { sys with st := { sys.st with teamLimit := n } }
  else sys

/-- Debit applied to one team by `adminLockStakes`: subtract the stake
(floored at 0) and consume the quiz joker if one was applied. -/
def lockDebit (s : StakeEntry) (t : Team) : Team :=
  { t with
    coins := max 0 (t.coins - s.stake),
    quizJoker := if s.useJoker then 0 else t.quizJoker }

/-- The `game.adminLockStakes` method.  Note that the source has NO phase
guard here: the debit loop, the pot computation and the move to CATEGORY
run regardless of the current phase. -/
def adminLockStakes (sys : Sys) : Sys :=
  let ts1 := sys.st.stakes.foldl
    (fun acc p => updateTeam acc p.1 (lockDebit p.2)) sys.teams
  let sumEinsatz := (sys.st.stakes.map (fun p => p.2.stake)).sum
  let jokerExtra := (sys.st.stakes.map (fun p => if p.2.useJoker then p.2.stake else 0)).sum
  { st := { sys.st with categoryPot := sumEinsatz + jokerExtra + 3, phase := "CATEGORY" },
    teams := ts1 }

/-- First-occurrence de-duplication, modelling `[...new Set(xs)]`. -/
def dedup (l : List String) : List String :=
  l.foldl (fun acc x => if acc.contains x then acc else acc ++ [x]) []

/-- The `uniqueIds` computation of `adminResolveRound`: drop null entries,
de-duplicate, and keep only registered team ids.  Entries are modelled as
strings (the source coerces with `String(id)`). -/
def resolveUniqueIds (teams : List Team) (winnerIds : Option (List (Option String))) : List String :=
  (dedup ((winnerIds.getD []).filterMap (fun x => x))).filter (fun id => hasTeam teams id)

/-- Shared tail of a successful resolution: mark the round key resolved and
store the `ResolutionRecord` as `pendingResult`; `emitPendingResult` then
also copies it into `lastResult`. -/
def finishResolve (sys : Sys) (resolvedWinnerId : Option String)
    (resolvedWinnerIds : List String) (tieShare : Option Int)
    (payout : Int) (now : Nat) : Sys :=
  let st1 := markRoundResolved sys.st true
  let tiePayouts :=
    match tieShare with
    | some sh =>
        if resolvedWinnerIds.length > 1 then
          some (resolvedWinnerIds.map (fun id => (id, sh)))
        else none
    | none => none
  let record : ResolutionRecord :=
    { winnerId := resolvedWinnerId, winnerIds := resolvedWinnerIds,
      category := st1.currentCategory, roundIndex := st1.roundIndex,
      payout := payout, carry := st1.carryRound, tiePayouts := tiePayouts,
      carriedAmount :=
        if resolvedWinnerId = none ∧ resolvedWinnerIds = [] ∧ st1.carryRound > 0 then
          st1.carryRound
        else 0,
      atMs := now }
  { sys with st := { st1 with pendingResult := some record, lastResult := some record } }

/-- Credit one winner with a gain (`team.coins += gain`). -/
def payShare (share : Int) (t : Team) : Team :=
  { t with coins := t.coins + share }

/-- Bump an integer counter object entry, `obj[id] = (obj[id]||0) + d`. -/
def bumpCounter (m : List (String × Int)) (id : String) (d : Int) : List (String × Int) :=
  aset m id ((alookup m id).getD 0 + d)

/-- Body of the tie `forEach` loop: credit the share and bump the win and
earnings counters of one winner. -/
def tieStep (share : Int)
    (acc : List Team × List (String × Int) × List (String × Int))
    (id : String) : List Team × List (String × Int) × List (String × Int) :=
  (updateTeam acc.1 id (payShare share),
   bumpCounter acc.2.1 id 1,
   bumpCounter acc.2.2 id share)

/-- Tie branch of `adminResolveRound` (two or more registered winners):
every tied team gains `share = floor(totalPot / n)` (also counted into
`roundWins` and `categoryEarnings`); the remainder is ADDED to `carryRound`
when further rounds remain, and discarded (only logged) on the final round. -/
def resolveTie (sys : Sys) (uniq : List String) (payout totalPot : Int) (now : Nat) : Sys :=
  let n : Int := uniq.length
  let share := Int.fdiv totalPot n
  let remainder := totalPot - share * n
  let acc := uniq.foldl (tieStep share)
    (sys.teams, sys.st.roundWins, sys.st.categoryEarnings)
  let carry1 :=
    if sys.st.roundIndex < ROUNDS_PER_CATEGORY - 1 then sys.st.carryRound + remainder
    else sys.st.carryRound
  let st1 :=
    { sys.st with
      carryRound := carry1, roundWins := acc.2.1, categoryEarnings := acc.2.2 }
  finishResolve { st := st1, teams := acc.1 } none uniq (some share) payout now

/-- Single-or-zero-winner branch of `adminResolveRound`.  `winnerId` models
the raw payload field: `none` is an absent (`undefined`) field, `some none`
is an explicit `null` (the no-winner signal), `some (some s)` a team id. -/
def resolveSingle (sys : Sys) (winnerId : Option (Option String))
    (uniq : List String) (payout totalPot : Int) (now : Nat) : Sys :=
  let rawSingle : Option (Option String) :=
    match uniq with
    | [u] => some (some u)
    | _ => winnerId
  let singleId : Option String :=
    match rawSingle with
    | some (some s) => some s
    | _ => none
  let noWinner : Sys :=
    if winnerId = some none then
      finishResolve { sys with st := { sys.st with carryRound := sys.st.carryRound + payout } }
        none [] none payout now
    else sys
  match singleId with
  | some s =>
      if s ≠ "" ∧ hasTeam sys.teams s then
        let ts1 := updateTeam sys.teams s (fun t => { t with coins := t.coins + totalPot })
        let st1 :=
          { sys.st with
            carryRound := 0,
            roundWins := aset sys.st.roundWins s ((alookup sys.st.roundWins s).getD 0 + 1),
            categoryEarnings := aset sys.st.categoryEarnings s ((alookup sys.st.categoryEarnings s).getD 0 + totalPot) }
        finishResolve { st := st1, teams := ts1 } (some s) [s] none payout now
      else noWinner
  | none => noWinner

/-- The `game.adminResolveRound` method: no-op outside CATEGORY or when the
current round key is already resolved; otherwise settle the round. -/
def adminResolveRound (sys : Sys) (winnerId : Option (Option String))
    (winnerIds : Option (List (Option String))) (now : Nat) : Sys :=
  if sys.st.phase ≠ "CATEGORY" then sys
  else if isRoundResolved sys.st then sys
  else
    let payout := Int.fdiv sys.st.categoryPot (ROUNDS_PER_CATEGORY : Int)
    let uniq := resolveUniqueIds sys.teams winnerIds
    let totalPot := payout + sys.st.carryRound
    if uniq.length > 1 then resolveTie sys uniq payout totalPot now
    else resolveSingle sys winnerId uniq payout totalPot now

/-- The `game.adminRoundEnd` method: announce the pending result if it
matches the current round, then clear it. -/
def adminRoundEnd (sys : Sys) : Sys :=
  match sys.st.pendingResult with
  | none => sys
  | some r =>
      if r.category ≠ sys.st.currentCategory then sys
      else if r.roundIndex ≠ sys.st.roundIndex then sys
      else { sys with st := { sys.st with pendingResult := none } }

/-- The `game.adminRoundUndo` method: restore balances and carry from the
caller-supplied snapshot, roll back the recorded winners' win and earnings
counters, clear the result records and un-mark the round. -/
def adminRoundUndo (sys : Sys) (coinMap : Option (List (String × Int)))
    (carrySnap : Option Int) : Sys :=
  if sys.st.phase ≠ "CATEGORY" then sys
  else if ¬ isRoundResolved sys.st then sys
  else
    let ts1 :=
      match coinMap with
      | some m => m.foldl (fun acc p =>
          if hasTeam acc p.1 then updateTeam acc p.1 (fun t => { t with coins := max 0 p.2 })
          else acc) sys.teams
      | none => sys.teams
    let carry1 :=
      match carrySnap with
      | some c => max 0 c
      | none => sys.st.carryRound
    let last : Option ResolutionRecord :=
      match sys.st.pendingResult with
      | some r =>
          if r.category = sys.st.currentCategory ∧ r.roundIndex = sys.st.roundIndex then some r
          else
            match sys.st.lastResult with
            | some r2 =>
                if r2.category = sys.st.currentCategory ∧ r2.roundIndex = sys.st.roundIndex then some r2
                else none
            | none => none
      | none =>
          match sys.st.lastResult with
          | some r2 =>
              if r2.category = sys.st.currentCategory ∧ r2.roundIndex = sys.st.roundIndex then some r2
              else none
          | none => none
    let books :=
      match last with
      | none => (sys.st.roundWins, sys.st.categoryEarnings)
      | some r =>
          let winners :=
            if r.winnerIds ≠ [] then r.winnerIds
            else match r.winnerId with
                 | some w => [w]
                 | none => []
          winners.foldl (fun (acc : List (String × Int) × List (String × Int)) id =>
            let wins1 :=
              match alookup acc.1 id with
              | some w => if w ≠ 0 then aset acc.1 id (max 0 (w - 1)) else acc.1
              | none => acc.1
            let gain :=
              match r.tiePayouts with
              | some tp =>
                  match alookup tp id with
                  | some g => g
                  | none => if r.winnerId = some id then r.payout + r.carry else 0
              | none => if r.winnerId = some id then r.payout + r.carry else 0
            let earn1 :=
              if gain ≠ 0 then
                match alookup acc.2 id with
                | some e => if e ≠ 0 then aset acc.2 id (max 0 (e - gain)) else acc.2
                | none => acc.2
              else acc.2
            (wins1, earn1)) (sys.st.roundWins, sys.st.categoryEarnings)
    let st1 :=
      { sys.st with
        carryRound := carry1, roundWins := books.1,
        categoryEarnings := books.2, pendingResult := none, lastResult := none }
    { st := markRoundResolved st1 false, teams := ts1 }

/-- The `game.adminRoundNext` method: clear the result records, un-mark the
round, advance (bounded) and clear submissions; for the Elch category the
buzzer is re-armed and the fixed draw for the new round performed. -/
def adminRoundNext (sys : Sys) : Sys :=
  if sys.st.phase ≠ "CATEGORY" then sys
  else
    let st1 := markRoundResolved { sys.st with pendingResult := none, lastResult := none } false
    let st2 :=
      { st1 with
        roundIndex := min (ROUNDS_PER_CATEGORY - 1) (st1.roundIndex + 1),
        submissions := [] }
    let st3 :=
      if sys.st.currentCategory = some "Elch" then
        elchRedraw { st2 with elch := { st2.elch with buzzOrder := [], buzzLocked := false } }
      else st2
    { sys with st := st3 }

/-- The `game.adminRoundPrev` method: mirror of `adminRoundNext` stepping
backwards (bounded at 0). -/
def adminRoundPrev (sys : Sys) : Sys :=
  if sys.st.phase ≠ "CATEGORY" then sys
  else
    let st1 := markRoundResolved { sys.st with pendingResult := none, lastResult := none } false
    let st2 := { st1 with roundIndex := st1.roundIndex - 1, submissions := [] }
    let st3 :=
      if sys.st.currentCategory = some "Elch" then
        elchRedraw { st2 with elch := { st2.elch with buzzOrder := [], buzzLocked := false } }
      else st2
    { sys with st := st3 }

/-- The `game.adminFinishCategory` method: emit the category summary (a
side effect) and reset to LOBBY, keeping the join code. -/
def adminFinishCategory (sys : Sys) : Sys :=
  { sys with st :=
    { sys.st with
      phase := "LOBBY", currentCategory := none, roundIndex := 0,
      stakes := [], categoryPot := 0, carryRound := 0, submissions := [],
      roundWins := [], categoryEarnings := [], resolvedRounds := [],
      pendingResult := none, lastResult := none, elch := initElch } }

/-- The `game.adminGotoLobby` method: identical state reset to
`adminFinishCategory` but without the summary broadcast. -/
def adminGotoLobby (sys : Sys) : Sys :=
  { sys with st :=
    { sys.st with
      phase := "LOBBY", currentCategory := none, roundIndex := 0,
      stakes := [], categoryPot := 0, carryRound := 0, submissions := [],
      roundWins := [], categoryEarnings := [], resolvedRounds := [],
      pendingResult := none, lastResult := none, elch := initElch } }

/-- The `game.adminTimerStart` method: clamp the requested seconds into
`[1, 999]` and store the absolute expiry instant. -/
def adminTimerStart (sys : Sys) (seconds : Int) (now : Nat) : Sys :=
  let s := max 1 (min 999 seconds)
  { sys with st :=
    { sys.st with
      timerDuration := s, timerEndsAt := some (now + s.toNat * 1000),
      timerPausedRemaining := 0, lastTimerEnd := none } }

/-- The `game.adminTimerStop` method: freeze the remaining whole seconds
(rounded up, floored at 0) and clear the expiry instant. -/
def adminTimerStop (sys : Sys) (now : Nat) : Sys :=
  let paused :=
    match sys.st.timerEndsAt with
    | some e => (Int.ofNat ((e - now) + 999) / 1000 : Int)
    | none => sys.st.timerPausedRemaining
  { sys with st := { sys.st with timerPausedRemaining := paused, timerEndsAt := none } }

/-- The `game.adminTimerReset` method. -/
def adminTimerReset (sys : Sys) : Sys :=
  { sys with st :=
    { sys.st with
      timerEndsAt := none, timerDuration := 0, timerPausedRemaining := 0 } }

/-- The `game.adminTimerResume` method: restart from the frozen remainder
(only when stopped with a positive remainder), keeping `timerDuration`. -/
def adminTimerResume (sys : Sys) (now : Nat) : Sys :=
  if sys.st.timerEndsAt = none ∧ sys.st.timerPausedRemaining > 0 then
    let s := max 1 sys.st.timerPausedRemaining
    { sys with st :=
      { sys.st with
        timerEndsAt := some (now + s.toNat * 1000), timerPausedRemaining := 0 } }
  else sys

/-- The `game.adminElchDraw` method: always restart the round's draw with
the primary label, clear the buzz state, and re-open buzzing. -/
def adminElchDraw (sys : Sys) : Sys :=
  if sys.st.currentCategory ≠ some "Elch" then sys
  else
    let cfg := elchFixed sys.st.roundIndex
    let used1 :=
      if sys.st.elch.used.contains cfg.1 then sys.st.elch.used
      else sys.st.elch.used ++ [cfg.1]
    { sys with st := { sys.st with elch :=
        { sys.st.elch with
          category := some cfg.1, used := used1, exhausted := false,
          buzzOrder := [], buzzLocked := false, phase := some "BUZZ_READY",
          buzzAnswerEndsAt := none } } }

/-- The `game.adminElchSetLock` method. -/
def adminElchSetLock (sys : Sys) (locked : Bool) : Sys :=
  if sys.st.currentCategory ≠ some "Elch" then sys
  else
    let e1 := { sys.st.elch with buzzLocked := locked }
    let e2 := if locked then { e1 with phase := some "LOCK" } else e1
    { sys with st := { sys.st with elch := e2 } }

/-- The `game.adminElchClearBuzz` method: re-open buzzing and toggle to the
alternate label for the round. -/
def adminElchClearBuzz (sys : Sys) : Sys :=
  if sys.st.currentCategory ≠ some "Elch" then sys
  else
    let cfg := elchFixed sys.st.roundIndex
    let cur := sys.st.elch.category
    let pick := if cur = some cfg.1 then cfg.2 else cfg.1
    let used1 :=
      if sys.st.elch.used.contains pick then sys.st.elch.used
      else sys.st.elch.used ++ [pick]
    { sys with st := { sys.st with elch :=
        { sys.st.elch with
          buzzOrder := [], buzzLocked := false, category := some pick,
          used := used1, exhausted := false, phase := some "BUZZ_READY",
          buzzAnswerEndsAt := none } } }

/-- The `game.adminElchConfirm` method: pick the explicit team or the first
buzzer, lock, and delegate to `adminResolveRound` with a single winner. -/
def adminElchConfirm (sys : Sys) (teamId : Option String) (now : Nat) : Sys :=
  if sys.st.currentCategory ≠ some "Elch" then sys
  else if sys.st.phase ≠ "CATEGORY" then sys
  else if isRoundResolved sys.st then sys
  else
    let first := sys.st.elch.buzzOrder.head?
    let winnerId : Option String :=
      match teamId with
      | some tid => if hasTeam sys.teams tid then some tid else first.map (fun f => f.1)
      | none => first.map (fun f => f.1)
    match winnerId with
    | none => sys
    | some w =>
        if w = "" ∨ ¬ hasTeam sys.teams w then sys
        else
          let sys1 := { sys with st := { sys.st with elch :=
            { sys.st.elch with
              buzzAnswerEndsAt := none, phase := some "LOCK", buzzLocked := true } } }
          adminResolveRound sys1 (some (some w)) none now

/-- The `game.adminElchUnlock` method: re-open buzzing with the same label. -/
def adminElchUnlock (sys : Sys) : Sys :=
  if sys.st.currentCategory ≠ some "Elch" then sys
  else if sys.st.elch.exhausted then sys
  else
    { sys with st := { sys.st with elch :=
        { sys.st.elch with
          buzzOrder := [], buzzLocked := false,
          phase := some "BUZZ_READY", buzzAnswerEndsAt := none } } }

/-- The `game.adminRaceSet` method (direct effect; the delayed RACE → POST
auto-advance is a background timeout). -/
def adminRaceSet (sys : Sys) (mode : String) : Sys :=
  let m := mode.toUpper
  if ¬ (["PRE", "RACE", "POST", "FINAL"].contains m) then sys
  else { sys with st := { sys.st with raceMode := m } }

/-- The `game.adminResetAll` method: hard reset of state and team registry.
The source's fresh `state.elch` literal omits `phase` and
`buzzAnswerEndsAt` (leaving them `undefined`), and the method does NOT
reset `roundWins`, `resolvedRounds`, `categoryEarnings`, `pendingResult`,
`lastResult`, `fuchsHistory` or `lastTimerEnd`. -/
def adminResetAll (sys : Sys) : Sys :=
  { st :=
    { sys.st with
      phase := "LOBBY", currentCategory := none, roundIndex := 0,
      stakes := [], categoryPot := 0, carryRound := 0, submissions := [],
      timerEndsAt := none, timerDuration := 0, timerPausedRemaining := 0,
      elch := { category := none, used := [], buzzOrder := [], buzzLocked := false,
                exhausted := false, phase := none, buzzAnswerEndsAt := none },
      raceMode := "POST", joinCode := none },
    teams := [] }

/-- The 300 ms background timer tick: on natural expiry clear `timerEndsAt`
and record the expiry instant for the grace window. -/
def timerTick (sys : Sys) (now : Nat) : Sys :=
  match sys.st.timerEndsAt with
  | some e =>
      if sys.st.phase = "CATEGORY" ∧ now ≥ e then
        { sys with st := { sys.st with timerEndsAt := none, lastTimerEnd := some e } }
      else sys
  | none => sys

/-- The 1 s background Elch tick: auto-unlock the buzzer when the answer
window passed without the round being resolved. -/
def elchAutoUnlockTick (sys : Sys) (now : Nat) : Sys :=
  if sys.st.phase = "CATEGORY" ∧ sys.st.currentCategory = some "Elch" then
    match sys.st.elch.buzzAnswerEndsAt with
    | some w =>
        if now > w ∧ ¬ isRoundResolved sys.st then
          { sys with st := { sys.st with elch :=
              { sys.st.elch with
                buzzLocked := false, phase := some "BUZZ_READY",
                buzzOrder := [], buzzAnswerEndsAt := none } } }
        else sys
    | none => sys
  else sys

/-- Clearing pass of the duplicate socket handlers registered for
`admin:category:start`, `admin:round:next`, `admin:round:prev` and
`admin:category:finish`: each event has a second listener that resets
`state.fuchsHistory` and `state.submissions`. -/
def clearFx (sys : Sys) : Sys :=
  { sys with st := { sys.st with fuchsHistory := [], submissions := [] } }

/-- The command surface: one constructor per mutating socket command (plus
the two periodic background ticks).  Every `now` argument is the
`Date.now()` value observed by that invocation. -/
inductive Op where
  | teamJoin (id : String) (name avatar : Option String) (now : Nat)
  | teamSetStake (id : String) (stake : Int) (useJoker : Bool)
  | teamSubmit (category : String) (id : String) (payload : SubmitPayload) (now : Nat)
  | adminTeamUpdate (id : String) (coins quizJoker : Option Int) (name avatar : Option String)
  | adminTeamKick (id : String)
  | adminStartCategory (category : Option String)
  | adminSetTeamLimit (limit : Int)
  | adminLockStakes
  | adminResolveRound (winnerId : Option (Option String))
      (winnerIds : Option (List (Option String))) (now : Nat)
  | adminRoundEnd
  | adminRoundUndo (coinMap : Option (List (String × Int))) (carrySnap : Option Int)
  | adminRoundNext
  | adminRoundPrev
  | adminFinishCategory
  | adminGotoLobby
  | adminTimerStart (seconds : Int) (now : Nat)
  | adminTimerStop (now : Nat)
  | adminTimerReset
  | adminTimerResume (now : Nat)
  | adminElchDraw
  | adminElchSetLock (locked : Bool)
  | adminElchClearBuzz
  | adminElchConfirm (teamId : Option String) (now : Nat)
  | adminElchUnlock
  | adminRaceSet (mode : String)
  | adminResetAll
  | timerTick (now : Nat)
  | elchAutoUnlockTick (now : Nat)
deriving Repr, DecidableEq

/-- One step of the engine: dispatch a command to its handler.  The four
events carrying a second registered listener compose it after the game
method, in registration order. -/
def step (sys : Sys) : Op → Sys
  | .teamJoin id name avatar now => teamJoin sys id name avatar now
  | .teamSetStake id stake useJoker => teamSetStake sys id stake useJoker
  | .teamSubmit category id payload now => teamSubmit sys category id payload now
  | .adminTeamUpdate id coins quizJoker name avatar =>
      adminTeamUpdate sys id coins quizJoker name avatar
  | .adminTeamKick id => adminTeamKick sys id
  | .adminStartCategory category => clearFx (adminStartCategory sys category)
  | .adminSetTeamLimit limit => adminSetTeamLimit sys limit
  | .adminLockStakes => adminLockStakes sys
  | .adminResolveRound winnerId winnerIds now => adminResolveRound sys winnerId winnerIds now
  | .adminRoundEnd => adminRoundEnd sys
  | .adminRoundUndo coinMap carrySnap => adminRoundUndo sys coinMap carrySnap
  | .adminRoundNext => clearFx (adminRoundNext sys)
  | .adminRoundPrev => clearFx (adminRoundPrev sys)
  | .adminFinishCategory => clearFx (adminFinishCategory sys)
  | .adminGotoLobby => adminGotoLobby sys
  | .adminTimerStart seconds now => adminTimerStart sys seconds now
  | .adminTimerStop now => adminTimerStop sys now
  | .adminTimerReset => adminTimerReset sys
  | .adminTimerResume now => adminTimerResume sys now
  | .adminElchDraw => adminElchDraw sys
  | .adminElchSetLock locked => adminElchSetLock sys locked
  | .adminElchClearBuzz => adminElchClearBuzz sys
  | .adminElchConfirm teamId now => adminElchConfirm sys teamId now
  | .adminElchUnlock => adminElchUnlock sys
  | .adminRaceSet mode => adminRaceSet sys mode
  | .adminResetAll => adminResetAll sys
  | .timerTick now => timerTick sys now
  | .elchAutoUnlockTick now => elchAutoUnlockTick sys now

/-- Run a sequence of commands from a starting state. -/
def run (sys : Sys) (ops : List Op) : Sys :=
  ops.foldl step sys

/-! The idempotency guard (`_recentActions` / `isDuplicateAction`). -/

/-- State of the guard: the `actionId → firstSeenAt` map (insertion order)
and the `_lastPurge` stamp stored on it. -/
structure Guard where
  recent : List (String × Nat)
  lastPurge : Nat
deriving Repr, DecidableEq

/-- The initial (empty) guard. -/
def initGuard : Guard := { recent := [], lastPurge := 0 }

/-- The `isDuplicateAction(actionId)` function: falsy ids are never
duplicates; otherwise lazily purge entries older than the window (at most
once a minute), report a duplicate if the id is still present, and stamp
fresh ids. -/
def isDuplicateAction (g : Guard) (actionId : Option String) (now : Nat) : Bool × Guard :=
  match actionId with
  | none => (false, g)
  | some aid =>
      if aid = "" then (false, g)
      else
        let g1 :=
          if g.recent ≠ [] ∧ g.lastPurge + 60000 < now then
            { recent := g.recent.filter (fun p => ¬ (IDEMP_WINDOW_MS < now - p.2)),
              lastPurge := now }
          else g
        if g1.recent.any (fun p => p.1 == aid) then (true, g1)
        else (false, { g1 with recent := g1.recent ++ [(aid, now)] })

/-- The `team:setStake` socket handler: consult the guard, then invoke
`game.teamSetStake` only for non-duplicates. -/
def handleTeamSetStake (g : Guard) (sys : Sys) (id : String) (stake : Int)
    (useJoker : Bool) (actionId : Option String) (now : Nat) : Guard × Sys :=
  let r := isDuplicateAction g actionId now
  if r.1 then (r.2, sys) else (r.2, teamSetStake sys id stake useJoker)

/-! The persistence snapshotter (`serializeState` / `snapshotState` /
`loadPersisted`).  JSON encoding round-trips all modelled field types
faithfully and is elided. -/

/-- Result of `serializeState()`: exactly the keys the source object
literal contains.  `roundResolved` is a derived flag (not a `state` key). -/
structure SerializedState where
  phase : String
  currentCategory : Option String
  roundIndex : Nat
  roundResolved : Bool
  stakes : List (String × StakeEntry)
  categoryPot : Int
  carryRound : Int
  submissions : List (String × Submission)
  fuchsHistory : List (String × List (String × Nat))
  joinCode : Option String
  teamLimit : Int
  timerEndsAt : Option Nat
  timerDuration : Int
  timerPausedRemaining : Int
  serverNow : Nat
  elch : ElchState
  raceMode : String
deriving Repr, DecidableEq

/-- The `serializeState()` function. -/
def serializeState (s : GameState) (now : Nat) : SerializedState :=
  { phase := s.phase, currentCategory := s.currentCategory,
    roundIndex := s.roundIndex, roundResolved := isRoundResolved s,
    stakes := s.stakes, categoryPot := s.categoryPot, carryRound := s.carryRound,
    submissions := s.submissions, fuchsHistory := s.fuchsHistory,
    joinCode := s.joinCode, teamLimit := s.teamLimit,
    timerEndsAt := s.timerEndsAt, timerDuration := s.timerDuration,
    timerPausedRemaining := s.timerPausedRemaining, serverNow := now,
    elch := s.elch, raceMode := s.raceMode }

/-- The on-disk state document: `snapshotState()` spreads away `serverNow`. -/
structure Snapshot where
  phase : String
  currentCategory : Option String
  roundIndex : Nat
  roundResolved : Bool
  stakes : List (String × StakeEntry)
  categoryPot : Int
  carryRound : Int
  submissions : List (String × Submission)
  fuchsHistory : List (String × List (String × Nat))
  joinCode : Option String
  teamLimit : Int
  timerEndsAt : Option Nat
  timerDuration : Int
  timerPausedRemaining : Int
  elch : ElchState
  raceMode : String
deriving Repr, DecidableEq

/-- The `snapshotState()` function (`const { serverNow, ...rest }`). -/
def snapshotState (s : GameState) (now : Nat) : Snapshot :=
  let z := serializeState s now
  { phase := z.phase, currentCategory := z.currentCategory,
    roundIndex := z.roundIndex, roundResolved := z.roundResolved,
    stakes := z.stakes, categoryPot := z.categoryPot, carryRound := z.carryRound,
    submissions := z.submissions, fuchsHistory := z.fuchsHistory,
    joinCode := z.joinCode, teamLimit := z.teamLimit,
    timerEndsAt := z.timerEndsAt, timerDuration := z.timerDuration,
    timerPausedRemaining := z.timerPausedRemaining,
    elch := z.elch, raceMode := z.raceMode }

/-- The `loadPersisted()` merge for the state document: for each key of the
in-memory `state` object, copy the snapshot's value when the snapshot has
that key.  The snapshot keys are the serialized ones, so exactly the
fifteen matching fields are overwritten: `roundResolved` is not a `state`
key (skipped), and `lastTimerEnd`, `roundWins`, `resolvedRounds`,
`categoryEarnings`, `pendingResult`, `lastResult` are `state` keys the
snapshot never contains (left at their boot values). -/
def loadPersisted (s0 : GameState) (raw : Snapshot) : GameState :=
  { s0 with
    phase := raw.phase, currentCategory := raw.currentCategory,
    roundIndex := raw.roundIndex, stakes := raw.stakes,
    categoryPot := raw.categoryPot, carryRound := raw.carryRound,
    submissions := raw.submissions, fuchsHistory := raw.fuchsHistory,
    joinCode := raw.joinCode, teamLimit := raw.teamLimit,
    timerEndsAt := raw.timerEndsAt, timerDuration := raw.timerDuration,
    timerPausedRemaining := raw.timerPausedRemaining,
    elch := raw.elch, raceMode := raw.raceMode }

/-- The `loadPersisted()` merge for the teams document: entries are kept
when truthy with a truthy id. -/
def loadPersistedTeams (arr : List Team) : List Team :=
  arr.filter (fun t => t.id ≠ "")

/-- Crash-recovery round trip on the game state: flush a snapshot, restart
(fresh `initState`), load the snapshot back. -/
def roundTripState (s : GameState) (now : Nat) : GameState :=
  loadPersisted initState (snapshotState s now)

/-- Example team used by concrete instances below. -/
def exTeam (id : String) (coins : Int) : Team :=
  { id := id, name := id, avatar := "/avatars/otter.png", coins := coins,
    quizJoker := 1, joinedAt := 0 }

/-- Example mid-category state: CATEGORY phase, three registered teams. -/
def exCatSys (pot carry : Int) : Sys :=
  { st :=
    { initState with
      phase := "CATEGORY", currentCategory := some "Hase", roundIndex := 0,
      categoryPot := pot, carryRound := carry },
    teams := [exTeam "A" 0, exTeam "B" 0, exTeam "C" 0] }

/-- The stake value that `teamSetStake` ends up storing for a team with the
given balance under the given team limit: invalid amounts coerce to 0 and
a balance below 3 forces any positive amount to 0. -/
def storedStake (teamLimit coins stake : Int) : Int :=
  let dynamicValid : List Int := if teamLimit > 2 then [0, 3, 6, 9] else [0, 3, 6]
  let s1 := if dynamicValid.contains stake then stake else 0
  if coins < 3 ∧ s1 > 0 then 0 else s1

/-- Nonnegativity of every registered team's coin balance. -/
def coinsNonneg (ts : List Team) : Prop := ∀ t ∈ ts, 0 ≤ t.coins

/-- The wagering-ledger invariant: all balances, staked amounts, the pot
and the carry are nonnegative. -/
def LedgerInv (sys : Sys) : Prop :=
  coinsNonneg sys.teams ∧ (∀ p ∈ sys.st.stakes, 0 ≤ p.2.stake) ∧
    0 ≤ sys.st.categoryPot ∧ 0 ≤ sys.st.carryRound

/-- Restriction on admin team updates under which claim C6 holds: a numeric
`coins` patch must be nonnegative (the source assigns it unclamped). -/
def okOp : Op → Bool
  | .adminTeamUpdate _ (some c) _ _ _ => decide (0 ≤ c)
  | _ => true

/-- The four ledger components, for stating that an operation leaves the
ledger untouched. -/
def ledgerOf (sys : Sys) : List Team × List (String × StakeEntry) × Int × Int :=
  (sys.teams, sys.st.stakes, sys.st.categoryPot, sys.st.carryRound)

/-! General-purpose lemmas about the embedded primitives (floor
division, the team map, the JavaScript-object association lists, the loops
of the settlement code).  These are shared by the claim theorems below. -/

theorem fdiv_ofNat_ofNat (m n : Nat) : Int.fdiv (Int.ofNat m) (Int.ofNat n) = Int.ofNat (m / n) := by
  cases m with
  | zero => simp [Int.fdiv]
  | succ m => rfl

theorem fdiv_nonneg_of_nonneg {a b : Int} (ha : 0 ≤ a) (hb : 0 ≤ b) : 0 ≤ Int.fdiv a b := by
  obtain ⟨m, rfl⟩ := Int.eq_ofNat_of_zero_le ha
  obtain ⟨n, rfl⟩ := Int.eq_ofNat_of_zero_le hb
  show 0 ≤ Int.fdiv (Int.ofNat m) (Int.ofNat n)
  rw [fdiv_ofNat_ofNat]
  exact Int.ofNat_nonneg _

theorem fdiv_mul_le_of_nonneg {a b : Int} (ha : 0 ≤ a) (hb : 0 ≤ b) : Int.fdiv a b * b ≤ a := by
  obtain ⟨m, rfl⟩ := Int.eq_ofNat_of_zero_le ha
  obtain ⟨n, rfl⟩ := Int.eq_ofNat_of_zero_le hb
  show Int.fdiv (Int.ofNat m) (Int.ofNat n) * Int.ofNat n ≤ Int.ofNat m
  rw [fdiv_ofNat_ofNat]
  rw [show ((Int.ofNat (m / n)) * Int.ofNat n = Int.ofNat (m / n * n)) from rfl]
  exact Int.ofNat_le.mpr (Nat.div_mul_le_self m n)
/-- Functions used to mutate a team in place never change its id. -/
def IdPreserving (f : Team → Team) : Prop := ∀ t, (f t).id = t.id

theorem getTeam_updateTeam_self (ts : List Team) (id : String) (f : Team → Team)
    (hf : IdPreserving f) :
    getTeam (updateTeam ts id f) id = (getTeam ts id).map f := by
  induction ts with
  | nil => rfl
  | cons t ts ih =>
      by_cases h : t.id = id
      · have hb : (t.id == id) = true := by simpa using h
        simp only [getTeam, updateTeam, List.map_cons, List.find?, hb, if_true, hf t]
        rfl
      · have hb : (t.id == id) = false := by simpa using h
        simp only [getTeam, updateTeam, List.map_cons, List.find?, hb, if_false,
          Bool.false_eq_true]
        exact ih

theorem getTeam_updateTeam_ne (ts : List Team) (id j : String) (f : Team → Team)
    (hf : IdPreserving f) (h : j ≠ id) :
    getTeam (updateTeam ts j f) id = getTeam ts id := by
  induction ts with
  | nil => rfl
  | cons t ts ih =>
      by_cases hj : t.id = j
      · have hb : (t.id == j) = true := by simpa using hj
        have hb2 : ((f t).id == id) = false := by simp [hf t, hj, h]
        have hb3 : (t.id == id) = false := by simp [hj, h]
        simp only [getTeam, updateTeam, List.map_cons, List.find?, hb, if_true, hb2, hb3]
        exact ih
      · have hb : (t.id == j) = false := by simpa using hj
        simp only [getTeam, updateTeam, List.map_cons, List.find?, hb, if_false,
          Bool.false_eq_true]
        cases hc : (t.id == id) with
        | true => simp only [hc]
        | false => simp only [hc]; exact ih
theorem lockDebit_id (e : StakeEntry) : IdPreserving (lockDebit e) := fun _ => rfl

theorem payShare_id (g : Int) : IdPreserving (payShare g) := fun _ => rfl

theorem alookup_cons {α : Type} (k : String) (v : α) (m : List (String × α)) (id : String) :
    alookup ((k, v) :: m) id = if k == id then some v else alookup m id := by
  simp only [alookup, List.find?]
  cases hc : k == id <;> simp [hc]

theorem alookup_eq_none_of_not_mem {α : Type} (m : List (String × α)) (id : String)
    (h : id ∉ m.map Prod.fst) : alookup m id = none := by
  induction m with
  | nil => rfl
  | cons p m ih =>
      rw [show p = (p.1, p.2) from rfl, alookup_cons]
      have hk : (p.1 == id) = false := by
        simp only [List.map_cons, List.mem_cons] at h
        simp only [beq_eq_false_iff_ne, ne_eq]
        intro hc
        exact h (Or.inl hc.symm)
      rw [hk]
      simp only [Bool.false_eq_true, if_false]
      exact ih (fun hm => h (by simp [hm]))

theorem getTeam_foldl_update_not_mem (ids : List String) (f : Team → Team)
    (hf : IdPreserving f) (ts : List Team) (id : String) (h : id ∉ ids) :
    getTeam (ids.foldl (fun acc i => updateTeam acc i f) ts) id = getTeam ts id := by
  induction ids generalizing ts with
  | nil => rfl
  | cons j ids ih =>
      simp only [List.foldl_cons]
      rw [ih _ (fun hm => h (List.mem_cons_of_mem _ hm))]
      exact getTeam_updateTeam_ne ts id j f hf (fun hj => h (hj ▸ List.mem_cons_self _ _))

theorem getTeam_foldl_update_mem (ids : List String) (f : Team → Team)
    (hf : IdPreserving f) (ts : List Team) (id : String) (hnd : ids.Nodup)
    (h : id ∈ ids) :
    getTeam (ids.foldl (fun acc i => updateTeam acc i f) ts) id = (getTeam ts id).map f := by
  induction ids generalizing ts with
  | nil => cases h
  | cons j ids ih =>
      simp only [List.foldl_cons]
      by_cases hj : j = id
      · subst hj
        have hnm : j ∉ ids := (List.nodup_cons.mp hnd).1
        rw [getTeam_foldl_update_not_mem ids f hf _ j hnm]
        exact getTeam_updateTeam_self ts j f hf
      · have hmem : id ∈ ids := by
          rcases List.mem_cons.mp h with h1 | h2
          · exact absurd h1.symm hj
          · exact h2
        rw [ih _ (List.nodup_cons.mp hnd).2 hmem]
        rw [getTeam_updateTeam_ne ts id j f hf hj]

theorem getTeam_lockFold (ps : List (String × StakeEntry)) (ts : List Team) (id : String)
    (hnd : (ps.map Prod.fst).Nodup) :
    getTeam (ps.foldl (fun acc p => updateTeam acc p.1 (lockDebit p.2)) ts) id =
      (match alookup ps id with
       | some e => (getTeam ts id).map (lockDebit e)
       | none => getTeam ts id) := by
  induction ps generalizing ts with
  | nil => rfl
  | cons p rest ih =>
      simp only [List.foldl_cons]
      rw [show p = (p.1, p.2) from rfl, alookup_cons]
      have hnd' : (p.1 :: rest.map Prod.fst).Nodup := by
        simpa only [List.map_cons] using hnd
      have hnd2 : (rest.map Prod.fst).Nodup := (List.nodup_cons.mp hnd').2
      by_cases hk : p.1 = id
      · have hb : (p.1 == id) = true := by simpa using hk
        rw [hb]
        have hnm : id ∉ rest.map Prod.fst := by
          have hh := (List.nodup_cons.mp hnd').1
          rw [hk] at hh
          exact hh
        have hnone : alookup rest id = none := alookup_eq_none_of_not_mem rest id hnm
        rw [ih _ hnd2, hnone]
        simp only [if_true]
        subst hk
        exact getTeam_updateTeam_self ts p.1 (lockDebit p.2) (lockDebit_id p.2)
      · have hb : (p.1 == id) = false := by simpa using hk
        rw [hb]
        simp only [Bool.false_eq_true, if_false]
        rw [ih _ hnd2]
        cases alookup rest id with
        | some e =>
            simp only []
            rw [getTeam_updateTeam_ne ts id p.1 (lockDebit p.2) (lockDebit_id p.2) hk]
        | none =>
            simp only []
            rw [getTeam_updateTeam_ne ts id p.1 (lockDebit p.2) (lockDebit_id p.2) hk]

theorem dedup_loop_nodup (l acc : List String) (h : acc.Nodup) :
    (l.foldl (fun acc x => if acc.contains x then acc else acc ++ [x]) acc).Nodup := by
  induction l generalizing acc with
  | nil => exact h
  | cons x l ih =>
      simp only [List.foldl_cons]
      by_cases hc : acc.contains x
      · rw [if_pos hc]
        exact ih _ h
      · rw [if_neg hc]
        refine ih _ ?_
        have hx : x ∉ acc := by simpa using hc
        simp [List.nodup_append, h, hx]

theorem dedup_nodup (l : List String) : (dedup l).Nodup :=
  dedup_loop_nodup l [] List.nodup_nil

theorem resolveUniqueIds_nodup (teams : List Team) (w : Option (List (Option String))) :
    (resolveUniqueIds teams w).Nodup :=
  (dedup_nodup _).filter _

theorem mem_resolveUniqueIds_hasTeam (teams : List Team) (w : Option (List (Option String)))
    (id : String) (h : id ∈ resolveUniqueIds teams w) : hasTeam teams id = true :=
  (List.mem_filter.mp h).2

theorem tieFold_fst (uniq : List String) (share : Int) (ts : List Team)
    (w e : List (String × Int)) :
    (uniq.foldl (tieStep share) (ts, w, e)).1 =
      uniq.foldl (fun acc i => updateTeam acc i (payShare share)) ts := by
  induction uniq generalizing ts w e with
  | nil => rfl
  | cons j uniq ih =>
      simp only [List.foldl_cons, tieStep]
      exact ih _ _ _

theorem markRoundResolved_keeps (s : GameState) (flag : Bool) :
    (markRoundResolved s flag).phase = s.phase ∧
    (markRoundResolved s flag).currentCategory = s.currentCategory ∧
    (markRoundResolved s flag).roundIndex = s.roundIndex := by
  unfold markRoundResolved
  split
  · exact ⟨rfl, rfl, rfl⟩
  · split <;> exact ⟨rfl, rfl, rfl⟩

theorem finishResolve_keeps (sys : Sys) (w : Option String) (ws : List String)
    (tsh : Option Int) (p : Int) (now : Nat) :
    (finishResolve sys w ws tsh p now).st.phase = sys.st.phase ∧
    (finishResolve sys w ws tsh p now).st.currentCategory = sys.st.currentCategory ∧
    (finishResolve sys w ws tsh p now).st.roundIndex = sys.st.roundIndex := by
  have h := markRoundResolved_keeps sys.st true
  exact ⟨h.1, h.2.1, h.2.2⟩

theorem resolveTie_keeps (sys : Sys) (uniq : List String) (p tp : Int) (now : Nat) :
    (resolveTie sys uniq p tp now).st.phase = sys.st.phase ∧
    (resolveTie sys uniq p tp now).st.currentCategory = sys.st.currentCategory ∧
    (resolveTie sys uniq p tp now).st.roundIndex = sys.st.roundIndex := by
  unfold resolveTie
  exact finishResolve_keeps _ _ _ _ _ _

theorem resolveSingle_phase (sys : Sys) (wid : Option (Option String)) (uniq : List String)
    (p tp : Int) (now : Nat) :
    (resolveSingle sys wid uniq p tp now).st.phase = sys.st.phase := by
  unfold resolveSingle
  dsimp only
  repeat' split
  all_goals first
    | exact (finishResolve_keeps _ _ _ _ _ _).1
    | rfl

theorem resolveSingle_currentCategory (sys : Sys) (wid : Option (Option String))
    (uniq : List String) (p tp : Int) (now : Nat) :
    (resolveSingle sys wid uniq p tp now).st.currentCategory = sys.st.currentCategory := by
  unfold resolveSingle
  dsimp only
  repeat' split
  all_goals first
    | exact (finishResolve_keeps _ _ _ _ _ _).2.1
    | rfl

theorem resolveSingle_roundIndex (sys : Sys) (wid : Option (Option String))
    (uniq : List String) (p tp : Int) (now : Nat) :
    (resolveSingle sys wid uniq p tp now).st.roundIndex = sys.st.roundIndex := by
  unfold resolveSingle
  dsimp only
  repeat' split
  all_goals first
    | exact (finishResolve_keeps _ _ _ _ _ _).2.2
    | rfl

theorem resolveSingle_keeps (sys : Sys) (wid : Option (Option String)) (uniq : List String)
    (p tp : Int) (now : Nat) :
    (resolveSingle sys wid uniq p tp now).st.phase = sys.st.phase ∧
    (resolveSingle sys wid uniq p tp now).st.currentCategory = sys.st.currentCategory ∧
    (resolveSingle sys wid uniq p tp now).st.roundIndex = sys.st.roundIndex :=
  ⟨resolveSingle_phase sys wid uniq p tp now,
   resolveSingle_currentCategory sys wid uniq p tp now,
   resolveSingle_roundIndex sys wid uniq p tp now⟩

theorem adminResolveRound_keeps (sys : Sys) (wid : Option (Option String))
    (wids : Option (List (Option String))) (now : Nat) :
    (adminResolveRound sys wid wids now).st.phase = sys.st.phase ∧
    (adminResolveRound sys wid wids now).st.currentCategory = sys.st.currentCategory ∧
    (adminResolveRound sys wid wids now).st.roundIndex = sys.st.roundIndex := by
  unfold adminResolveRound
  split
  · exact ⟨rfl, rfl, rfl⟩
  · split
    · exact ⟨rfl, rfl, rfl⟩
    · dsimp only
      split
      · exact resolveTie_keeps _ _ _ _ _
      · exact resolveSingle_keeps _ _ _ _ _ _

theorem adminResolveRound_of_not_category (sys : Sys) (wid : Option (Option String))
    (wids : Option (List (Option String))) (now : Nat) (h : sys.st.phase ≠ "CATEGORY") :
    adminResolveRound sys wid wids now = sys := by
  unfold adminResolveRound
  rw [if_pos h]

theorem adminResolveRound_of_resolved (sys : Sys) (wid : Option (Option String))
    (wids : Option (List (Option String))) (now : Nat) (hp : sys.st.phase = "CATEGORY")
    (hr : isRoundResolved sys.st = true) :
    adminResolveRound sys wid wids now = sys := by
  unfold adminResolveRound
  rw [if_neg (by simp [hp]), if_pos hr]

/-- Claim C2: `resolveRound` is idempotent per round key.  Outside the
CATEGORY phase a call changes nothing at all; in CATEGORY phase, once a
call has successfully resolved the current round key (the round key is
marked resolved afterwards), any second call — with arbitrary winner
arguments — returns the state unchanged, so team coins, `carryRound`,
`roundWins`, `categoryEarnings` and `pendingResult` are all untouched. -/
theorem C2_resolveRound_idempotent (sys : Sys) (wid1 wid2 : Option (Option String))
    (wids1 wids2 : Option (List (Option String))) (n1 n2 : Nat) :
    (sys.st.phase ≠ "CATEGORY" → adminResolveRound sys wid1 wids1 n1 = sys) ∧
    (sys.st.phase = "CATEGORY" →
      isRoundResolved (adminResolveRound sys wid1 wids1 n1).st = true →
      adminResolveRound (adminResolveRound sys wid1 wids1 n1) wid2 wids2 n2 =
        adminResolveRound sys wid1 wids1 n1) := by
  constructor
  · intro h
    exact adminResolveRound_of_not_category sys wid1 wids1 n1 h
  · intro hp hr
    refine adminResolveRound_of_resolved _ wid2 wids2 n2 ?_ hr
    rw [(adminResolveRound_keeps sys wid1 wids1 n1).1]
    exact hp
theorem markRoundResolved_carryRound (s : GameState) (flag : Bool) :
    (markRoundResolved s flag).carryRound = s.carryRound := by
  unfold markRoundResolved
  split
  · rfl
  · split <;> rfl

theorem finishResolve_teams (sys : Sys) (w : Option String) (ws : List String)
    (tsh : Option Int) (p : Int) (now : Nat) :
    (finishResolve sys w ws tsh p now).teams = sys.teams := rfl

theorem finishResolve_carry (sys : Sys) (w : Option String) (ws : List String)
    (tsh : Option Int) (p : Int) (now : Nat) :
    (finishResolve sys w ws tsh p now).st.carryRound = sys.st.carryRound := by
  unfold finishResolve
  dsimp only
  exact markRoundResolved_carryRound sys.st true

theorem adminResolveRound_tie_eq (sys : Sys) (wid : Option (Option String))
    (wids : Option (List (Option String))) (now : Nat)
    (hphase : sys.st.phase = "CATEGORY") (hres : isRoundResolved sys.st = false)
    (hn : 1 < (resolveUniqueIds sys.teams wids).length) :
    adminResolveRound sys wid wids now =
      resolveTie sys (resolveUniqueIds sys.teams wids)
        (Int.fdiv sys.st.categoryPot (ROUNDS_PER_CATEGORY : Int))
        (Int.fdiv sys.st.categoryPot (ROUNDS_PER_CATEGORY : Int) + sys.st.carryRound) now := by
  unfold adminResolveRound
  rw [if_neg (by simp [hphase]), if_neg (by simp [hres])]
  dsimp only
  rw [if_pos hn]

/-- Claim C1 (amended): in a tie resolution (CATEGORY phase, round not yet
resolved, more than one distinct registered winner), every winning team's
coin balance increases by exactly `share = floor(totalPot / n)` with
`totalPot = floor(categoryPot / 3) + carryRound`; afterwards, if more
rounds remain, `carryRound` equals its PREVIOUS value PLUS the remainder
`totalPot - share * n` (the source adds the remainder without resetting the
old carry), and on the final round the remainder is discarded, leaving
`carryRound` unchanged. -/
theorem C1_tie_split (sys : Sys) (wid : Option (Option String))
    (wids : Option (List (Option String))) (now : Nat)
    (hphase : sys.st.phase = "CATEGORY") (hres : isRoundResolved sys.st = false)
    (hn : 1 < (resolveUniqueIds sys.teams wids).length) :
    (∀ id ∈ resolveUniqueIds sys.teams wids, ∀ t, getTeam sys.teams id = some t →
        getTeam (adminResolveRound sys wid wids now).teams id =
          some (payShare
            (Int.fdiv (Int.fdiv sys.st.categoryPot (ROUNDS_PER_CATEGORY : Int) + sys.st.carryRound)
              ((resolveUniqueIds sys.teams wids).length : Int)) t)) ∧
    (adminResolveRound sys wid wids now).st.carryRound =
      (if sys.st.roundIndex < ROUNDS_PER_CATEGORY - 1 then
        sys.st.carryRound +
          ((Int.fdiv sys.st.categoryPot (ROUNDS_PER_CATEGORY : Int) + sys.st.carryRound) -
            Int.fdiv (Int.fdiv sys.st.categoryPot (ROUNDS_PER_CATEGORY : Int) + sys.st.carryRound)
                ((resolveUniqueIds sys.teams wids).length : Int) *
              ((resolveUniqueIds sys.teams wids).length : Int))
       else sys.st.carryRound) := by
  rw [adminResolveRound_tie_eq sys wid wids now hphase hres hn]
  unfold resolveTie
  dsimp only
  constructor
  · intro id hid t ht
    rw [finishResolve_teams]
    rw [tieFold_fst]
    rw [getTeam_foldl_update_mem _ _ (payShare_id _) _ _ (resolveUniqueIds_nodup _ _) hid]
    rw [ht]
    rfl
  · rw [finishResolve_carry]
theorem C1_tie_counterexample :
    (adminResolveRound (exCatSys 297 1) none (some [some "A", some "B", some "C"]) 5).st.carryRound = 2 ∧
    (Int.fdiv (exCatSys 297 1).st.categoryPot 3 + (exCatSys 297 1).st.carryRound = 100) ∧
    (Int.fdiv (100 : Int) 3 = 33) ∧
    ((100 : Int) - 33 * 3 = 1) ∧
    ((2 : Int) ≠ 1) ∧
    (exCatSys 297 1).st.roundIndex < ROUNDS_PER_CATEGORY - 1 := by
  exact ⟨by decide, by decide, by decide, by decide, by decide, by decide⟩

theorem C1_tie_split_witness :
    getTeam (adminResolveRound (exCatSys 300 0) none (some [some "A", some "B", some "C"]) 5).teams "A" =
      some { exTeam "A" 0 with coins := 33 } ∧
    (adminResolveRound (exCatSys 300 0) none (some [some "A", some "B", some "C"]) 5).st.carryRound = 1 := by
  have h := C1_tie_split (exCatSys 300 0) none (some [some "A", some "B", some "C"]) 5
    rfl (by decide) (by decide)
  constructor
  · have h1 := h.1 "A" (by decide) (exTeam "A" 0) (by decide)
    rw [h1]
    decide
  · rw [h.2]
    decide

theorem C2_resolveRound_idempotent_witness :
    (adminResolveRound { exCatSys 30 5 with st := { (exCatSys 30 5).st with phase := "STAKE" } }
        (some (some "A")) none 5 =
      { exCatSys 30 5 with st := { (exCatSys 30 5).st with phase := "STAKE" } }) ∧
    (adminResolveRound (adminResolveRound (exCatSys 30 5) (some (some "A")) none 5)
        (some (some "B")) none 6 =
      adminResolveRound (exCatSys 30 5) (some (some "A")) none 5) := by
  constructor
  · exact (C2_resolveRound_idempotent
      { exCatSys 30 5 with st := { (exCatSys 30 5).st with phase := "STAKE" } }
      (some (some "A")) (some (some "B")) none none 5 6).1 (by decide)
  · exact (C2_resolveRound_idempotent (exCatSys 30 5)
      (some (some "A")) (some (some "B")) none none 5 6).2 rfl (by decide)

theorem adminResolveRound_single_eq (sys : Sys) (wid : Option (Option String))
    (wids : Option (List (Option String))) (now : Nat)
    (hphase : sys.st.phase = "CATEGORY") (hres : isRoundResolved sys.st = false)
    (hlen : ¬ 1 < (resolveUniqueIds sys.teams wids).length) :
    adminResolveRound sys wid wids now =
      resolveSingle sys wid (resolveUniqueIds sys.teams wids)
        (Int.fdiv sys.st.categoryPot (ROUNDS_PER_CATEGORY : Int))
        (Int.fdiv sys.st.categoryPot (ROUNDS_PER_CATEGORY : Int) + sys.st.carryRound) now := by
  unfold adminResolveRound
  rw [if_neg (by simp [hphase]), if_neg (by simp [hres])]
  dsimp only
  rw [if_neg hlen]

/-- Claim C3 (amended): a single-winner resolution (CATEGORY phase,
unresolved round, exactly one registered winning team — either the single
entry of the de-duplicated winner list or an explicit `winnerId`) credits
that team with exactly `totalPot = floor(categoryPot / 3) + carryRound`
and resets `carryRound` to 0.  In the spec's example with
`categoryPot = 30` and `carryRound = 5` the team therefore receives
`10 (payout) + 5 (carry) = 15` coins, not 20 as the claim stated. -/
theorem C3_single_winner (sys : Sys) (wid : Option (Option String))
    (wids : Option (List (Option String))) (now : Nat) (s : String) (t : Team)
    (hphase : sys.st.phase = "CATEGORY") (hres : isRoundResolved sys.st = false)
    (harg : resolveUniqueIds sys.teams wids = [s] ∨
            (resolveUniqueIds sys.teams wids = [] ∧ wid = some (some s)))
    (hs : s ≠ "") (ht : getTeam sys.teams s = some t) :
    getTeam (adminResolveRound sys wid wids now).teams s =
      some { t with coins := t.coins +
        (Int.fdiv sys.st.categoryPot (ROUNDS_PER_CATEGORY : Int) + sys.st.carryRound) } ∧
    (adminResolveRound sys wid wids now).st.carryRound = 0 := by
  have hhas : hasTeam sys.teams s = true := by
    unfold hasTeam
    rw [ht]
    rfl
  have hlen : ¬ 1 < (resolveUniqueIds sys.teams wids).length := by
    rcases harg with h1 | h2
    · rw [h1]; simp
    · rw [h2.1]; simp
  rw [adminResolveRound_single_eq sys wid wids now hphase hres hlen]
  unfold resolveSingle
  rcases harg with h1 | h2
  · rw [h1]
    dsimp only
    rw [if_pos ⟨hs, hhas⟩]
    refine ⟨?_, ?_⟩
    · rw [finishResolve_teams]
      rw [getTeam_updateTeam_self sys.teams s
        (fun t => { t with coins := t.coins +
          (Int.fdiv sys.st.categoryPot (ROUNDS_PER_CATEGORY : Int) + sys.st.carryRound) })
        (fun _ => rfl)]
      rw [ht]
      rfl
    · rw [finishResolve_carry]
  · rw [h2.1, h2.2]
    dsimp only
    rw [if_pos ⟨hs, hhas⟩]
    refine ⟨?_, ?_⟩
    · rw [finishResolve_teams]
      rw [getTeam_updateTeam_self sys.teams s
        (fun t => { t with coins := t.coins +
          (Int.fdiv sys.st.categoryPot (ROUNDS_PER_CATEGORY : Int) + sys.st.carryRound) })
        (fun _ => rfl)]
      rw [ht]
      rfl
    · rw [finishResolve_carry]

theorem C3_single_counterexample :
    (getTeam (adminResolveRound (exCatSys 30 5) (some (some "A")) none 5).teams "A").map Team.coins
        = some 15 ∧
    ¬ ((getTeam (adminResolveRound (exCatSys 30 5) (some (some "A")) none 5).teams "A").map Team.coins
        = some 20) ∧
    (exCatSys 30 5).st.categoryPot = 30 ∧ (exCatSys 30 5).st.carryRound = 5 ∧
    (getTeam (exCatSys 30 5).teams "A").map Team.coins = some 0 := by
  exact ⟨by decide, by decide, by decide, by decide, by decide⟩

theorem C3_single_winner_witness :
    getTeam (adminResolveRound (exCatSys 30 5) (some (some "A")) none 5).teams "A" =
      some { exTeam "A" 0 with coins := 15 } ∧
    (adminResolveRound (exCatSys 30 5) (some (some "A")) none 5).st.carryRound = 0 := by
  have h := C3_single_winner (exCatSys 30 5) (some (some "A")) none 5 "A" (exTeam "A" 0)
    rfl (by decide) (Or.inr ⟨by decide, rfl⟩) (by decide) (by decide)
  constructor
  · rw [h.1]
    decide
  · exact h.2

/-- Command sequence driving the engine from boot to a locked category with
two teams each staking 6 (pot = 6 + 6 + 3 = 15, balances 24 − 6 = 18). -/
def exSeqLock : List Op :=
  [Op.teamJoin "A" (some "Alpha") none 1,
   Op.teamJoin "B" (some "Beta") none 2,
   Op.adminStartCategory (some "Hase"),
   Op.teamSetStake "A" 6 false,
   Op.teamSetStake "B" 6 false,
   Op.adminLockStakes]

/-- The same sequence followed by a kick of team B and a second
`admin:stakes:lock` while already in CATEGORY phase. -/
def exSeqRelock : List Op :=
  exSeqLock ++ [Op.adminTeamKick "B", Op.adminLockStakes]

/-- Claim C4 (code bug): the claim — and the spec's error policy — say that
invoking `lockStakes` outside the STAKE phase is a silent no-op, but
`adminLockStakes` in the source has no phase guard at all.  From a
reachable CATEGORY-phase state (reached via the command surface), a second
`admin:stakes:lock` debits every staking team again (18 → 12 coins) and
does not leave the state unchanged. -/
theorem C4_lockStakes_not_guarded :
    (run initSys exSeqLock).st.phase = "CATEGORY" ∧
    ("CATEGORY" : String) ≠ "STAKE" ∧
    (getTeam (run initSys exSeqLock).teams "A").map Team.coins = some 18 ∧
    (getTeam (run initSys (exSeqLock ++ [Op.adminLockStakes])).teams "A").map Team.coins = some 12 ∧
    run initSys (exSeqLock ++ [Op.adminLockStakes]) ≠ run initSys exSeqLock := by
  exact ⟨by decide, by decide, by decide, by decide, by decide⟩

/-- Example STAKE-phase state with one staked team, used as the concrete
input of the C5 witness. -/
def exStakedSys : Sys :=
  { st :=
    { initState with
      phase := "STAKE", currentCategory := some "Hase",
      stakes := [("A", { stake := 6, useJoker := false })] },
    teams := [exTeam "A" 24] }

/-- Claim C5 (code bug): at the moment of `lockStakes`, `categoryPot`
equals the sum of all staked amounts plus the joker-doubled amounts plus
the fixed base 3, every staking registered team is debited by its stake
floored at 0 and loses its joker if one was applied, and the phase becomes
CATEGORY.  The immutability half of the claim fails: because
`adminLockStakes` has no phase guard, a kick of a staked team followed by
a second `admin:stakes:lock` inside the same category recomputes
`categoryPot` (15 → 9 in the concrete run below) with no intervening
`startCategory`/`finishCategory`/lobby/reset transition. -/
theorem C5_lockStakes_pot :
    (∀ sys : Sys, (adminLockStakes sys).st.categoryPot =
      (sys.st.stakes.map (fun p => p.2.stake)).sum +
      (sys.st.stakes.map (fun p => if p.2.useJoker then p.2.stake else 0)).sum + 3) ∧
    (∀ sys : Sys, (adminLockStakes sys).st.phase = "CATEGORY") ∧
    (∀ (sys : Sys) (id : String) (e : StakeEntry) (t : Team),
      (sys.st.stakes.map Prod.fst).Nodup →
      alookup sys.st.stakes id = some e →
      getTeam sys.teams id = some t →
      getTeam (adminLockStakes sys).teams id = some (lockDebit e t)) ∧
    ((run initSys exSeqLock).st.categoryPot = 15 ∧
     (run initSys exSeqRelock).st.categoryPot = 9 ∧
     (run initSys (exSeqLock ++ [Op.adminTeamKick "B"])).st.phase = "CATEGORY") := by
  refine ⟨fun sys => rfl, fun sys => rfl, ?_, by decide, by decide, by decide⟩
  intro sys id e t hnd he ht
  show getTeam
      (sys.st.stakes.foldl (fun acc p => updateTeam acc p.1 (lockDebit p.2)) sys.teams) id =
    some (lockDebit e t)
  rw [getTeam_lockFold sys.st.stakes sys.teams id hnd, he]
  rw [ht]
  rfl

/-- Witness for C5: the per-team debit clause evaluated at the example
staked state. -/
theorem C5_lockStakes_pot_witness :
    getTeam (adminLockStakes exStakedSys).teams "A" =
      some (lockDebit { stake := 6, useJoker := false } (exTeam "A" 24)) :=
  C5_lockStakes_pot.2.2.1 exStakedSys "A" { stake := 6, useJoker := false } (exTeam "A" 24)
    (by decide) (by decide) (by decide)

/-- Example record used in the C7 counterexample state. -/
def exRecord : ResolutionRecord :=
  { winnerId := some "A", winnerIds := ["A"], category := some "Hase",
    roundIndex := 0, payout := 10, carry := 0, tiePayouts := none,
    carriedAmount := 0, atMs := 7 }

/-- Example mid-game state with a resolved round, used by the C7
counterexample: the round key "Hase:0" is resolved and a result is
pending. -/
def exC7state : GameState :=
  { initState with
    phase := "CATEGORY", currentCategory := some "Hase", roundIndex := 0,
    categoryPot := 15, carryRound := 4, resolvedRounds := ["Hase:0"],
    pendingResult := some exRecord, lastResult := some exRecord,
    roundWins := [("A", 1)], categoryEarnings := [("A", 10)],
    lastTimerEnd := some 123 }

theorem C7_roundtrip_counterexample :
    (roundTripState exC7state 999).resolvedRounds = [] ∧
    exC7state.resolvedRounds = ["Hase:0"] ∧
    (roundTripState exC7state 999).pendingResult = none ∧
    exC7state.pendingResult = some exRecord ∧
    roundTripState exC7state 999 ≠ exC7state := by
  exact ⟨rfl, rfl, rfl, rfl, by decide⟩

/-- Claim C7 (amended): the crash-recovery round trip (snapshotState to
disk, fresh boot state, loadPersisted) restores exactly the fifteen
serialized fields — phase, currentCategory, roundIndex, stakes,
categoryPot, carryRound, submissions, fuchsHistory, joinCode, teamLimit,
timerEndsAt, timerDuration, timerPausedRemaining, elch and raceMode — with
serverNow ephemeral; but roundWins, resolvedRounds, categoryEarnings,
pendingResult, lastResult and lastTimerEnd are never serialized and come
back at their boot defaults, so in particular the resolved-round guard and
a pending unannounced result do NOT survive a restart. -/
theorem C7_roundtrip (s : GameState) (now : Nat) :
    roundTripState s now =
      { s with lastTimerEnd := none, roundWins := [], resolvedRounds := [],
               categoryEarnings := [], pendingResult := none, lastResult := none } := rfl

theorem alookup_append_single {α : Type} (m : List (String × α)) (k : String) (v : α)
    (h : ∀ p ∈ m, (p.1 == k) = false) : alookup (m ++ [(k, v)]) k = some v := by
  induction m with
  | nil => simp [alookup, List.find?]
  | cons p m ih =>
      rw [List.cons_append, show (p :: (m ++ [(k, v)])) = ((p.1, p.2) :: (m ++ [(k, v)])) from rfl,
        alookup_cons]
      rw [h p (List.mem_cons_self _ _)]
      simp only [Bool.false_eq_true, if_false]
      exact ih (fun q hq => h q (List.mem_cons_of_mem _ hq))

theorem alookup_map_overwrite {α : Type} (m : List (String × α)) (k : String) (v : α)
    (h : m.any (fun p => p.1 == k) = true) :
    alookup (m.map (fun p => if p.1 == k then (k, v) else p)) k = some v := by
  induction m with
  | nil => cases h
  | cons p m ih =>
      rw [List.map_cons]
      cases hc : (p.1 == k) with
      | true =>
          simp [alookup_cons]
      | false =>
          have h2 : (m.any fun q => q.1 == k) = true := by
            rw [List.any_cons, hc] at h
            simpa using h
          simp only [Bool.false_eq_true, if_false]
          rw [show (p :: (m.map (fun q => if q.1 == k then (k, v) else q))) =
              ((p.1, p.2) :: (m.map (fun q => if q.1 == k then (k, v) else q))) from rfl,
            alookup_cons, hc]
          simp only [Bool.false_eq_true, if_false]
          exact ih h2

theorem alookup_aset_self {α : Type} (m : List (String × α)) (k : String) (v : α) :
    alookup (aset m k v) k = some v := by
  unfold aset
  by_cases h : m.any (fun p => p.1 == k) = true
  · rw [if_pos h]
    exact alookup_map_overwrite m k v h
  · rw [if_neg h]
    refine alookup_append_single m k v ?_
    intro p hp
    by_contra hc
    exact h (List.any_eq_true.mpr ⟨p, hp, by simpa using hc⟩)
theorem teamSetStake_stored (sys : Sys) (id : String) (stake : Int) (useJoker : Bool)
    (t : Team) (hp : sys.st.phase = "STAKE") (ht : getTeam sys.teams id = some t) :
    alookup (teamSetStake sys id stake useJoker).st.stakes id =
      some { stake := storedStake sys.st.teamLimit t.coins stake,
             useJoker := useJoker ∧ t.quizJoker > 0 ∧
               storedStake sys.st.teamLimit t.coins stake > 0 } := by
  unfold teamSetStake
  rw [if_neg (by simp [hp]), ht]
  exact alookup_aset_self _ _ _

theorem storedStake_invalid (tl coins stake : Int)
    (h : (if tl > 2 then ([0, 3, 6, 9] : List Int) else [0, 3, 6]).contains stake = false) :
    storedStake tl coins stake = 0 := by
  unfold storedStake
  dsimp only
  rw [h]
  simp

theorem storedStake_lowbank (tl coins stake : Int) (hc : coins < 3) (hp : 0 < stake) :
    storedStake tl coins stake = 0 := by
  unfold storedStake
  dsimp only
  by_cases h : (if tl > 2 then ([0, 3, 6, 9] : List Int) else [0, 3, 6]).contains stake = true
  · rw [h]
    simp only [if_true]
    rw [if_pos ⟨hc, hp⟩]
  · rw [show ((if tl > 2 then ([0, 3, 6, 9] : List Int) else [0, 3, 6]).contains stake) = false
      from by simpa using h]
    simp

/-- Claim C8: `setStake` validation.  Outside STAKE phase the call changes
nothing (in particular the stakes map).  In STAKE phase, for a registered
team: an amount outside the allowed set (the base set `{0,3,6}` extended
by 9 when the configured team limit exceeds 2) is stored as 0; with a
balance below 3, any positive requested amount is stored as 0; and the
stored joker flag is true only when the stored amount is positive and the
team holds at least one joker. -/
theorem C8_setStake_validation (sys : Sys) (id : String) (stake : Int) (useJoker : Bool) :
    (sys.st.phase ≠ "STAKE" → teamSetStake sys id stake useJoker = sys) ∧
    (∀ t : Team, sys.st.phase = "STAKE" → getTeam sys.teams id = some t →
      (stake ∉ (if sys.st.teamLimit > 2 then ([0, 3, 6, 9] : List Int) else [0, 3, 6]) →
        (alookup (teamSetStake sys id stake useJoker).st.stakes id).map StakeEntry.stake = some 0) ∧
      (t.coins < 3 → 0 < stake →
        (alookup (teamSetStake sys id stake useJoker).st.stakes id).map StakeEntry.stake = some 0) ∧
      (∀ e : StakeEntry, alookup (teamSetStake sys id stake useJoker).st.stakes id = some e →
        e.useJoker = true → 0 < e.stake ∧ 0 < t.quizJoker)) := by
  constructor
  · intro h
    unfold teamSetStake
    rw [if_pos h]
  · intro t hp ht
    have hstored := teamSetStake_stored sys id stake useJoker t hp ht
    refine ⟨?_, ?_, ?_⟩
    · intro hout
      have hc : (if sys.st.teamLimit > 2 then ([0, 3, 6, 9] : List Int)
          else [0, 3, 6]).contains stake = false := by
        cases hcc : (if sys.st.teamLimit > 2 then ([0, 3, 6, 9] : List Int)
            else [0, 3, 6]).contains stake with
        | false => rfl
        | true => exact absurd (by simpa using hcc) hout
      rw [hstored, storedStake_invalid sys.st.teamLimit t.coins stake hc]
      rfl
    · intro hcoins hpos
      rw [hstored, storedStake_lowbank sys.st.teamLimit t.coins stake hcoins hpos]
      rfl
    · intro e he huj
      rw [hstored] at he
      have he2 := Option.some.inj he
      rw [← he2] at huj
      have hprop := of_decide_eq_true huj
      rw [← he2]
      exact ⟨hprop.2.2, hprop.2.1⟩
/-- Example STAKE-phase state whose single team has a bank below the
minimum paid stake. -/
def exLowBankSys : Sys :=
  { st := { initState with phase := "STAKE" }, teams := [exTeam "A" 2] }

theorem C8_setStake_validation_witness :
    (alookup (teamSetStake exLowBankSys "A" 7 false).st.stakes "A").map StakeEntry.stake = some 0 ∧
    (alookup (teamSetStake exLowBankSys "A" 6 true).st.stakes "A").map StakeEntry.stake = some 0 ∧
    teamSetStake (exCatSys 30 5) "A" 6 false = exCatSys 30 5 := by
  refine ⟨?_, ?_, ?_⟩
  · exact ((C8_setStake_validation exLowBankSys "A" 7 false).2 (exTeam "A" 2) rfl
      (by decide)).1 (by decide)
  · exact ((C8_setStake_validation exLowBankSys "A" 6 true).2 (exTeam "A" 2) rfl
      (by decide)).2.1 (by decide) (by decide)
  · exact (C8_setStake_validation (exCatSys 30 5) "A" 6 false).1 (by decide)

theorem elchBuzz_first (sys : Sys) (id : String) (now : Nat) (c : String)
    (hc : sys.st.elch.category = some c) (hcne : ¬ c = "")
    (hunlocked : sys.st.elch.buzzLocked = false)
    (hempty : sys.st.elch.buzzOrder = []) (hwin : sys.st.elch.buzzAnswerEndsAt = none) :
    elchBuzz sys id now =
      { sys with
        st :=
          { sys.st with
            elch :=
              { sys.st.elch with
                buzzOrder := [(id, now)], buzzLocked := true,
                phase := some "LOCK",
                buzzAnswerEndsAt := some (now + ELCH_ANSWER_WINDOW_MS) } } } := by
  unfold elchBuzz
  rw [hc]
  dsimp only
  rw [if_neg hcne]
  rw [hempty, hunlocked]
  dsimp only [List.any_nil]
  rw [if_pos (by simp)]
  rw [hwin]
  simp

theorem elchBuzz_locked (sys : Sys) (id : String) (now : Nat)
    (h : sys.st.elch.buzzLocked = true) : elchBuzz sys id now = sys := by
  unfold elchBuzz
  cases hc : sys.st.elch.category with
  | none => rfl
  | some c =>
      dsimp only
      by_cases hce : c = ""
      · rw [if_pos hce]
      · rw [if_neg hce]
        rw [if_neg (by simp [h])]

theorem teamSubmit_elch_buzz_locked (sys : Sys) (id : String) (now : Nat)
    (h : sys.st.elch.buzzLocked = true) :
    teamSubmit sys "Elch" id SubmitPayload.buzz now = sys := by
  unfold teamSubmit
  show (if ¬(sys.st.phase = "CATEGORY" ∧
        normCatOpt sys.st.currentCategory = some (normalizeCategory "Elch")) then sys
      else if graceBlocked sys.st now then sys
      else if normalizeCategory "Elch" = "Elch" ∧
          SubmitPayload.buzz = SubmitPayload.buzz then elchBuzz sys id now
      else storeSubmission sys id SubmitPayload.buzz now) = sys
  by_cases h1 : sys.st.phase = "CATEGORY" ∧
      normCatOpt sys.st.currentCategory = some (normalizeCategory "Elch")
  · rw [if_neg (not_not_intro h1)]
    by_cases h2 : graceBlocked sys.st now = true
    · rw [if_pos h2]
    · rw [if_neg h2, if_pos ⟨by decide, rfl⟩]
      exact elchBuzz_locked sys id now h
  · rw [if_pos h1]

/-- Claim C9: buzzer arbitration.  While a draw is active (a non-empty Elch
label is set), in CATEGORY phase with the Elch category current and the
submission not dropped by the timer grace check, the first accepted buzz
(buzz order empty, buzzer unlocked, answer window unset) makes the buzz
order exactly the singleton of that team, sets the lock, moves the Elch
phase to LOCK and opens the answer window at `now + 45 s` (the default
window).  Once locked, ANY further buzz — from another team or a repeat
from the same team — leaves the entire state unchanged (the late buzzer is
only informed privately), so the buzz order never gains an entry after the
lock until an explicit unlock/clear or the auto-unlock. -/
theorem C9_buzzer_arbitration (sys : Sys) (id : String) (now : Nat) (c : String)
    (hphase : sys.st.phase = "CATEGORY")
    (hcat : sys.st.currentCategory = some "Elch")
    (hgrace : graceBlocked sys.st now = false)
    (hc : sys.st.elch.category = some c) (hcne : ¬ c = "")
    (hunlocked : sys.st.elch.buzzLocked = false)
    (hempty : sys.st.elch.buzzOrder = [])
    (hwin : sys.st.elch.buzzAnswerEndsAt = none) :
    ((teamSubmit sys "Elch" id SubmitPayload.buzz now).st.elch.buzzOrder = [(id, now)] ∧
     (teamSubmit sys "Elch" id SubmitPayload.buzz now).st.elch.buzzLocked = true ∧
     (teamSubmit sys "Elch" id SubmitPayload.buzz now).st.elch.phase = some "LOCK" ∧
     (teamSubmit sys "Elch" id SubmitPayload.buzz now).st.elch.buzzAnswerEndsAt =
       some (now + ELCH_ANSWER_WINDOW_MS)) ∧
    (∀ (sys2 : Sys) (j : String) (m : Nat), sys2.st.elch.buzzLocked = true →
      teamSubmit sys2 "Elch" j SubmitPayload.buzz m = sys2) := by
  have hsubmit : teamSubmit sys "Elch" id SubmitPayload.buzz now = elchBuzz sys id now := by
    unfold teamSubmit
    rw [if_neg (by rw [hphase, hcat]; decide)]
    rw [hgrace]
    simp only [Bool.false_eq_true, if_false]
    rw [if_pos (by decide)]
  rw [hsubmit, elchBuzz_first sys id now c hc hcne hunlocked hempty hwin]
  exact ⟨⟨rfl, rfl, rfl, rfl⟩, teamSubmit_elch_buzz_locked⟩

/-- Example Elch-phase state with an active draw and open buzzer. -/
def exElchSys : Sys :=
  { st :=
    { initState with
      phase := "CATEGORY", currentCategory := some "Elch",
      elch := { initElch with category := some "Tiere", phase := some "BUZZ_READY" } },
    teams := [exTeam "A" 0, exTeam "B" 0] }

theorem C9_buzzer_arbitration_witness :
    (teamSubmit exElchSys "Elch" "A" SubmitPayload.buzz 1000).st.elch.buzzOrder = [("A", 1000)] ∧
    teamSubmit (teamSubmit exElchSys "Elch" "A" SubmitPayload.buzz 1000) "Elch" "B"
        SubmitPayload.buzz 1001 =
      teamSubmit exElchSys "Elch" "A" SubmitPayload.buzz 1000 := by
  have h := C9_buzzer_arbitration exElchSys "A" 1000 "Tiere" rfl rfl (by decide) rfl
    (by decide) rfl rfl rfl
  exact ⟨h.1.1, h.2 _ "B" 1001 h.1.2.1⟩

theorem any_beq_eq_false (l : List (String × Nat)) (aid : String)
    (h : ∀ p ∈ l, p.1 ≠ aid) : (l.any (fun p => p.1 == aid)) = false := by
  cases hc : l.any (fun p => p.1 == aid) with
  | false => rfl
  | true =>
      obtain ⟨p, hp, hbeq⟩ := List.any_eq_true.mp hc
      exact absurd (by simpa using hbeq) (h p hp)

theorem isDuplicateAction_fresh (g : Guard) (aid : String) (now : Nat)
    (haid : ¬ aid = "") (hfresh : ∀ p ∈ g.recent, p.1 ≠ aid) :
    ∃ g1 : Guard, isDuplicateAction g (some aid) now = (false, g1) ∧
      (aid, now) ∈ g1.recent := by
  unfold isDuplicateAction
  dsimp only
  rw [if_neg haid]
  by_cases hp : (g.recent ≠ [] ∧ g.lastPurge + 60000 < now)
  · rw [if_pos hp]
    rw [any_beq_eq_false _ aid (fun p hp2 => hfresh p (List.mem_filter.mp hp2).1)]
    exact ⟨_, rfl, by simp⟩
  · rw [if_neg hp]
    rw [any_beq_eq_false g.recent aid hfresh]
    exact ⟨_, rfl, by simp⟩

theorem isDuplicateAction_dup (g : Guard) (aid : String) (t1 t2 : Nat)
    (haid : ¬ aid = "") (hmem : (aid, t1) ∈ g.recent)
    (hwin : t2 - t1 ≤ IDEMP_WINDOW_MS) :
    (isDuplicateAction g (some aid) t2).1 = true := by
  unfold isDuplicateAction
  dsimp only
  rw [if_neg haid]
  by_cases hp : (g.recent ≠ [] ∧ g.lastPurge + 60000 < t2)
  · rw [if_pos hp]
    have hany : ((g.recent.filter (fun p => ¬ (IDEMP_WINDOW_MS < t2 - p.2))).any
        (fun p => p.1 == aid)) = true := by
      refine List.any_eq_true.mpr ⟨(aid, t1), List.mem_filter.mpr ⟨hmem, ?_⟩, by simp⟩
      simpa using Nat.not_lt.mpr hwin
    rw [hany]
    rfl
  · rw [if_neg hp]
    have hany : (g.recent.any (fun p => p.1 == aid)) = true :=
      List.any_eq_true.mpr ⟨(aid, t1), hmem, by simp⟩
    rw [hany]
    rfl

/-- Claim C10: the idempotency guard.  A first `team:setStake` carrying a
fresh actionId is applied; a second invocation with the identical actionId
arriving within the 10-second window is dropped before reaching the game
logic, so the stakes map is mutated exactly once; and an invocation without
an actionId is always applied. -/
theorem C10_idempotency_guard (g : Guard) (sys : Sys) (id : String)
    (stake stake2 : Int) (uj uj2 : Bool) (aid : String) (t1 t2 : Nat)
    (haid : ¬ aid = "") (hfresh : ∀ p ∈ g.recent, p.1 ≠ aid)
    (hwin : t2 - t1 ≤ IDEMP_WINDOW_MS) :
    ((handleTeamSetStake g sys id stake uj (some aid) t1).2 = teamSetStake sys id stake uj) ∧
    ((handleTeamSetStake (handleTeamSetStake g sys id stake uj (some aid) t1).1
        (handleTeamSetStake g sys id stake uj (some aid) t1).2 id stake2 uj2 (some aid) t2).2 =
      (handleTeamSetStake g sys id stake uj (some aid) t1).2) ∧
    (∀ (g2 : Guard) (sys2 : Sys) (id2 : String) (st2 : Int) (uj3 : Bool) (n2 : Nat),
      (handleTeamSetStake g2 sys2 id2 st2 uj3 none n2).2 = teamSetStake sys2 id2 st2 uj3) := by
  obtain ⟨g1, heq1, hmem1⟩ := isDuplicateAction_fresh g aid t1 haid hfresh
  have hfirst : handleTeamSetStake g sys id stake uj (some aid) t1 =
      (g1, teamSetStake sys id stake uj) := by
    unfold handleTeamSetStake
    rw [heq1]
    simp
  refine ⟨by rw [hfirst], ?_, ?_⟩
  · rw [hfirst]
    have hdup := isDuplicateAction_dup g1 aid t1 t2 haid hmem1 hwin
    unfold handleTeamSetStake
    show (if (isDuplicateAction g1 (some aid) t2).1 = true
        then ((isDuplicateAction g1 (some aid) t2).2, teamSetStake sys id stake uj)
        else ((isDuplicateAction g1 (some aid) t2).2,
          teamSetStake (teamSetStake sys id stake uj) id stake2 uj2)).2 =
      teamSetStake sys id stake uj
    rw [hdup]
    simp
  · intro g2 sys2 id2 st2 uj3 n2
    rfl

theorem C10_idempotency_guard_witness :
    (handleTeamSetStake initGuard exLowBankSys "A" 3 false (some "act1") 100).2 =
      teamSetStake exLowBankSys "A" 3 false ∧
    (handleTeamSetStake (handleTeamSetStake initGuard exLowBankSys "A" 3 false (some "act1") 100).1
        (handleTeamSetStake initGuard exLowBankSys "A" 3 false (some "act1") 100).2
        "A" 6 true (some "act1") 5000).2 =
      (handleTeamSetStake initGuard exLowBankSys "A" 3 false (some "act1") 100).2 := by
  have h := C10_idempotency_guard initGuard exLowBankSys "A" 3 6 false true "act1" 100 5000
    (by decide) (by intro p hp; cases hp) (by decide)
  exact ⟨h.1, h.2.1⟩

theorem storedStake_nonneg (tl coins stake : Int) : 0 ≤ storedStake tl coins stake := by
  unfold storedStake
  dsimp only
  by_cases hc : (if tl > 2 then ([0, 3, 6, 9] : List Int) else [0, 3, 6]).contains stake = true
  · have hnn : 0 ≤ stake := by
      have hmem : stake ∈ (if tl > 2 then ([0, 3, 6, 9] : List Int) else [0, 3, 6]) := by
        simpa using hc
      by_cases hl : tl > 2
      · rw [if_pos hl] at hmem
        fin_cases hmem <;> omega
      · rw [if_neg hl] at hmem
        fin_cases hmem <;> omega
    rw [hc]
    simp only [if_true]
    split
    · omega
    · exact hnn
  · rw [show ((if tl > 2 then ([0, 3, 6, 9] : List Int) else [0, 3, 6]).contains stake) = false
      from by simpa using hc]
    simp
theorem ledgerOf_inv (sys2 sys : Sys) (h : ledgerOf sys2 = ledgerOf sys)
    (hinv : LedgerInv sys) : LedgerInv sys2 := by
  have h1 : sys2.teams = sys.teams := congrArg (fun x => x.1) h
  have h2 : sys2.st.stakes = sys.st.stakes := congrArg (fun x => x.2.1) h
  have h3 : sys2.st.categoryPot = sys.st.categoryPot := congrArg (fun x => x.2.2.1) h
  have h4 : sys2.st.carryRound = sys.st.carryRound := congrArg (fun x => x.2.2.2) h
  unfold LedgerInv coinsNonneg at hinv ⊢
  rw [h1, h2, h3, h4]
  exact hinv

theorem coinsNonneg_updateTeam (ts : List Team) (id : String) (f : Team → Team)
    (hf : ∀ t, 0 ≤ t.coins → 0 ≤ (f t).coins) (h : coinsNonneg ts) :
    coinsNonneg (updateTeam ts id f) := by
  intro t ht
  unfold updateTeam at ht
  obtain ⟨t0, ht0, heq⟩ := List.mem_map.mp ht
  by_cases hc : (t0.id == id) = true
  · rw [if_pos hc] at heq
    rw [← heq]
    exact hf t0 (h t0 ht0)
  · rw [if_neg hc] at heq
    rw [← heq]
    exact h t0 ht0

theorem coinsNonneg_foldl {β : Type} (l : List β) (key : β → String) (f : β → Team → Team)
    (hf : ∀ b t, 0 ≤ t.coins → 0 ≤ (f b t).coins) :
    ∀ ts : List Team, coinsNonneg ts →
      coinsNonneg (l.foldl (fun acc b => updateTeam acc (key b) (f b)) ts) := by
  induction l with
  | nil => exact fun ts h => h
  | cons b l ih =>
      intro ts h
      simp only [List.foldl_cons]
      exact ih _ (coinsNonneg_updateTeam _ _ _ (hf b) h)

theorem stakes_nonneg_aset (m : List (String × StakeEntry)) (k : String) (v : StakeEntry)
    (hm : ∀ p ∈ m, 0 ≤ p.2.stake) (hv : 0 ≤ v.stake) :
    ∀ p ∈ aset m k v, 0 ≤ p.2.stake := by
  intro p hp
  unfold aset at hp
  by_cases h : (m.any fun q => q.1 == k) = true
  · rw [if_pos h] at hp
    obtain ⟨q, hq, heq⟩ := List.mem_map.mp hp
    by_cases hc : (q.1 == k) = true
    · rw [if_pos hc] at heq
      rw [← heq]
      exact hv
    · rw [if_neg hc] at heq
      rw [← heq]
      exact hm q hq
  · rw [if_neg h] at hp
    rcases List.mem_append.mp hp with h1 | h2
    · exact hm p h1
    · rw [List.mem_singleton] at h2
      subst h2
      exact hv

theorem sum_nonneg_int (l : List Int) (h : ∀ x ∈ l, 0 ≤ x) : 0 ≤ l.sum := by
  induction l with
  | nil => simp
  | cons x l ih =>
      rw [List.sum_cons]
      have h1 := h x (List.mem_cons_self _ _)
      have h2 := ih (fun y hy => h y (List.mem_cons_of_mem _ hy))
      omega
theorem teamSubmit_ledger (sys : Sys) (category id : String) (payload : SubmitPayload)
    (now : Nat) : ledgerOf (teamSubmit sys category id payload now) = ledgerOf sys := by
  unfold teamSubmit elchBuzz storeSubmission
  try dsimp only
  repeat' split
  all_goals rfl

theorem adminRoundEnd_ledger (sys : Sys) : ledgerOf (adminRoundEnd sys) = ledgerOf sys := by
  unfold adminRoundEnd
  try dsimp only
  repeat' split
  all_goals rfl

theorem adminRoundNext_ledger (sys : Sys) : ledgerOf (adminRoundNext sys) = ledgerOf sys := by
  unfold adminRoundNext markRoundResolved elchRedraw
  try dsimp only
  repeat' split
  all_goals rfl

theorem adminRoundPrev_ledger (sys : Sys) : ledgerOf (adminRoundPrev sys) = ledgerOf sys := by
  unfold adminRoundPrev markRoundResolved elchRedraw
  try dsimp only
  repeat' split
  all_goals rfl

theorem adminSetTeamLimit_ledger (sys : Sys) (limit : Int) :
    ledgerOf (adminSetTeamLimit sys limit) = ledgerOf sys := by
  unfold adminSetTeamLimit
  try dsimp only
  repeat' split
  all_goals rfl

theorem adminTimerStart_ledger (sys : Sys) (seconds : Int) (now : Nat) :
    ledgerOf (adminTimerStart sys seconds now) = ledgerOf sys := rfl

theorem adminTimerStop_ledger (sys : Sys) (now : Nat) :
    ledgerOf (adminTimerStop sys now) = ledgerOf sys := by
  unfold adminTimerStop
  try dsimp only
  repeat' split
  all_goals rfl

theorem adminTimerReset_ledger (sys : Sys) : ledgerOf (adminTimerReset sys) = ledgerOf sys := rfl

theorem adminTimerResume_ledger (sys : Sys) (now : Nat) :
    ledgerOf (adminTimerResume sys now) = ledgerOf sys := by
  unfold adminTimerResume
  try dsimp only
  repeat' split
  all_goals rfl

theorem adminElchDraw_ledger (sys : Sys) : ledgerOf (adminElchDraw sys) = ledgerOf sys := by
  unfold adminElchDraw
  try dsimp only
  repeat' split
  all_goals rfl

theorem adminElchSetLock_ledger (sys : Sys) (locked : Bool) :
    ledgerOf (adminElchSetLock sys locked) = ledgerOf sys := by
  unfold adminElchSetLock
  try dsimp only
  repeat' split
  all_goals rfl

theorem adminElchClearBuzz_ledger (sys : Sys) :
    ledgerOf (adminElchClearBuzz sys) = ledgerOf sys := by
  unfold adminElchClearBuzz
  try dsimp only
  repeat' split
  all_goals rfl

theorem adminElchUnlock_ledger (sys : Sys) :
    ledgerOf (adminElchUnlock sys) = ledgerOf sys := by
  unfold adminElchUnlock
  try dsimp only
  repeat' split
  all_goals rfl

theorem adminRaceSet_ledger (sys : Sys) (mode : String) :
    ledgerOf (adminRaceSet sys mode) = ledgerOf sys := by
  unfold adminRaceSet
  try dsimp only
  repeat' split
  all_goals rfl

theorem timerTick_ledger (sys : Sys) (now : Nat) :
    ledgerOf (timerTick sys now) = ledgerOf sys := by
  unfold timerTick
  try dsimp only
  repeat' split
  all_goals rfl

theorem elchAutoUnlockTick_ledger (sys : Sys) (now : Nat) :
    ledgerOf (elchAutoUnlockTick sys now) = ledgerOf sys := by
  unfold elchAutoUnlockTick
  try dsimp only
  repeat' split
  all_goals rfl

theorem clearFx_ledger (sys : Sys) : ledgerOf (clearFx sys) = ledgerOf sys := rfl
theorem teamJoin_coins (sys : Sys) (id : String) (name avatar : Option String) (now : Nat)
    (h : coinsNonneg sys.teams) : coinsNonneg (teamJoin sys id name avatar now).teams := by
  unfold teamJoin
  try dsimp only
  cases hg : getTeam sys.teams id with
  | none =>
      intro t ht
      rcases List.mem_append.mp ht with h1 | h2
      · exact h t h1
      · rw [List.mem_singleton] at h2
        subst h2
        exact (by norm_num : (0 : Int) ≤ 24)
  | some t0 =>
      dsimp only
      repeat' split
      all_goals
        first
        | exact h
        | exact coinsNonneg_updateTeam _ _ _ (fun t ht0 => ht0) h
        | exact coinsNonneg_updateTeam _ _ _ (fun t ht0 => ht0)
            (coinsNonneg_updateTeam _ _ _ (fun t ht0 => ht0) h)

theorem teamJoin_st (sys : Sys) (id : String) (name avatar : Option String) (now : Nat) :
    (teamJoin sys id name avatar now).st = sys.st := by
  unfold teamJoin
  try dsimp only
  repeat' split
  all_goals rfl

theorem teamJoin_inv (sys : Sys) (id : String) (name avatar : Option String) (now : Nat)
    (h : LedgerInv sys) : LedgerInv (teamJoin sys id name avatar now) := by
  obtain ⟨hc, hs, hp, hcr⟩ := h
  have hst := teamJoin_st sys id name avatar now
  exact ⟨teamJoin_coins sys id name avatar now hc,
    by rw [hst]; exact hs, by rw [hst]; exact hp, by rw [hst]; exact hcr⟩

theorem teamSetStake_inv (sys : Sys) (id : String) (stake : Int) (uj : Bool)
    (h : LedgerInv sys) : LedgerInv (teamSetStake sys id stake uj) := by
  obtain ⟨hc, hs, hp, hcr⟩ := h
  unfold teamSetStake
  by_cases hph : sys.st.phase ≠ "STAKE"
  · rw [if_pos hph]
    exact ⟨hc, hs, hp, hcr⟩
  · rw [if_neg hph]
    cases hg : getTeam sys.teams id with
    | none => exact ⟨hc, hs, hp, hcr⟩
    | some t =>
        dsimp only
        refine ⟨hc, ?_, hp, hcr⟩
        exact stakes_nonneg_aset _ _ _ hs (storedStake_nonneg sys.st.teamLimit t.coins stake)

theorem adminTeamUpdate_inv (sys : Sys) (id : String) (coins qj : Option Int)
    (nm av : Option String) (hok : ∀ c, coins = some c → 0 ≤ c) (h : LedgerInv sys) :
    LedgerInv (adminTeamUpdate sys id coins qj nm av) := by
  obtain ⟨hc, hs, hp, hcr⟩ := h
  unfold adminTeamUpdate
  cases hg : getTeam sys.teams id with
  | none => exact ⟨hc, hs, hp, hcr⟩
  | some t0 =>
      dsimp only
      refine ⟨?_, hs, hp, hcr⟩
      refine coinsNonneg_updateTeam _ _ _ ?_ hc
      intro t ht
      cases coins with
      | none => cases qj <;> cases nm <;> cases av <;> exact ht
      | some c =>
          have hcc := hok c rfl
          cases qj <;> cases nm <;> cases av <;> exact hcc

theorem adminTeamKick_inv (sys : Sys) (id : String) (h : LedgerInv sys) :
    LedgerInv (adminTeamKick sys id) := by
  obtain ⟨hc, hs, hp, hcr⟩ := h
  unfold adminTeamKick
  by_cases hg : id = "" ∨ ¬ hasTeam sys.teams id = true
  · rw [if_pos hg]
    exact ⟨hc, hs, hp, hcr⟩
  · rw [if_neg hg]
    dsimp only
    refine ⟨?_, ?_, hp, hcr⟩
    · intro t ht
      exact hc t (List.mem_of_mem_filter ht)
    · intro p hp2
      exact hs p (List.mem_of_mem_filter hp2)
theorem adminStartCategory_inv (sys : Sys) (category : Option String)
    (h : LedgerInv sys) : LedgerInv (adminStartCategory sys category) := by
  obtain ⟨hc, _, _, _⟩ := h
  unfold adminStartCategory elchRedraw
  try dsimp only
  repeat' split
  all_goals exact ⟨hc, fun p hp => absurd hp (List.not_mem_nil p), le_refl 0, le_refl 0⟩

theorem adminFinishCategory_inv (sys : Sys) (h : LedgerInv sys) :
    LedgerInv (adminFinishCategory sys) := by
  obtain ⟨hc, _, _, _⟩ := h
  exact ⟨hc, fun p hp => absurd hp (List.not_mem_nil p), le_refl 0, le_refl 0⟩

theorem adminGotoLobby_inv (sys : Sys) (h : LedgerInv sys) :
    LedgerInv (adminGotoLobby sys) := by
  obtain ⟨hc, _, _, _⟩ := h
  exact ⟨hc, fun p hp => absurd hp (List.not_mem_nil p), le_refl 0, le_refl 0⟩

theorem adminResetAll_inv (sys : Sys) : LedgerInv (adminResetAll sys) :=
  ⟨fun t ht => absurd ht (List.not_mem_nil t),
   fun p hp => absurd hp (List.not_mem_nil p), le_refl 0, le_refl 0⟩

theorem adminLockStakes_inv (sys : Sys) (h : LedgerInv sys) :
    LedgerInv (adminLockStakes sys) := by
  obtain ⟨hc, hs, hp, hcr⟩ := h
  unfold adminLockStakes
  dsimp only
  refine ⟨?_, hs, ?_, hcr⟩
  · exact coinsNonneg_foldl sys.st.stakes Prod.fst (fun p => lockDebit p.2)
      (fun b t ht => le_max_left 0 _) sys.teams hc
  · have h1 : 0 ≤ (sys.st.stakes.map (fun p => p.2.stake)).sum := by
      refine sum_nonneg_int _ ?_
      intro x hx
      obtain ⟨p, hp2, hpe⟩ := List.mem_map.mp hx
      rw [← hpe]
      exact hs p hp2
    have h2 : 0 ≤ (sys.st.stakes.map (fun p => if p.2.useJoker then p.2.stake else 0)).sum := by
      refine sum_nonneg_int _ ?_
      intro x hx
      obtain ⟨p, hp2, hpe⟩ := List.mem_map.mp hx
      rw [← hpe]
      split
      · exact hs p hp2
      · exact le_refl 0
    show 0 ≤ (sys.st.stakes.map (fun p => p.2.stake)).sum +
      (sys.st.stakes.map (fun p => if p.2.useJoker then p.2.stake else 0)).sum + 3
    omega

theorem markRoundResolved_ledger (s : GameState) (flag : Bool) :
    (markRoundResolved s flag).stakes = s.stakes ∧
      (markRoundResolved s flag).categoryPot = s.categoryPot ∧
      (markRoundResolved s flag).carryRound = s.carryRound := by
  unfold markRoundResolved
  repeat' split
  all_goals exact ⟨rfl, rfl, rfl⟩

theorem finishResolve_inv (sys : Sys) (rw1 : Option String) (rws : List String)
    (tsh : Option Int) (p : Int) (now : Nat) (h : LedgerInv sys) :
    LedgerInv (finishResolve sys rw1 rws tsh p now) := by
  obtain ⟨hc, hs, hp, hcr⟩ := h
  obtain ⟨m1, m2, m3⟩ := markRoundResolved_ledger sys.st true
  refine ⟨hc, ?_, ?_, ?_⟩
  · show ∀ q ∈ (markRoundResolved sys.st true).stakes, 0 ≤ q.2.stake
    rw [m1]
    exact hs
  · show 0 ≤ (markRoundResolved sys.st true).categoryPot
    rw [m2]
    exact hp
  · show 0 ≤ (markRoundResolved sys.st true).carryRound
    rw [m3]
    exact hcr

theorem resolveTie_inv (sys : Sys) (uniq : List String) (payout totalPot : Int) (now : Nat)
    (htot : 0 ≤ totalPot) (h : LedgerInv sys) :
    LedgerInv (resolveTie sys uniq payout totalPot now) := by
  obtain ⟨hc, hs, hp, hcr⟩ := h
  have hn : (0 : Int) ≤ (uniq.length : Int) := Int.ofNat_nonneg _
  have hshare : 0 ≤ Int.fdiv totalPot (uniq.length : Int) := fdiv_nonneg_of_nonneg htot hn
  have hrem : 0 ≤ totalPot - Int.fdiv totalPot (uniq.length : Int) * (uniq.length : Int) := by
    have := fdiv_mul_le_of_nonneg htot hn
    omega
  unfold resolveTie
  dsimp only
  refine finishResolve_inv _ _ _ _ _ _ ⟨?_, hs, hp, ?_⟩
  · show coinsNonneg (uniq.foldl (tieStep (Int.fdiv totalPot (uniq.length : Int)))
      (sys.teams, sys.st.roundWins, sys.st.categoryEarnings)).1
    rw [tieFold_fst]
    exact coinsNonneg_foldl uniq (fun i => i)
      (fun _ => payShare (Int.fdiv totalPot (uniq.length : Int)))
      (fun b t ht => add_nonneg ht hshare) sys.teams hc
  · show 0 ≤ (if sys.st.roundIndex < ROUNDS_PER_CATEGORY - 1 then
        sys.st.carryRound + (totalPot - Int.fdiv totalPot (uniq.length : Int) * (uniq.length : Int))
      else sys.st.carryRound)
    split
    · omega
    · exact hcr

theorem resolveSingle_inv (sys : Sys) (winnerId : Option (Option String))
    (uniq : List String) (payout totalPot : Int) (now : Nat)
    (hpay : 0 ≤ payout) (htot : 0 ≤ totalPot) (h : LedgerInv sys) :
    LedgerInv (resolveSingle sys winnerId uniq payout totalPot now) := by
  obtain ⟨hc, hs, hp, hcr⟩ := h
  unfold resolveSingle
  dsimp only
  repeat' split
  all_goals first
    | exact ⟨hc, hs, hp, hcr⟩
    | exact finishResolve_inv _ _ _ _ _ _ ⟨hc, hs, hp, add_nonneg hcr hpay⟩
    | exact finishResolve_inv _ _ _ _ _ _
        ⟨coinsNonneg_updateTeam _ _ _ (fun t ht => add_nonneg ht htot) hc, hs, hp, le_refl 0⟩

theorem adminResolveRound_inv (sys : Sys) (winnerId : Option (Option String))
    (winnerIds : Option (List (Option String))) (now : Nat) (h : LedgerInv sys) :
    LedgerInv (adminResolveRound sys winnerId winnerIds now) := by
  obtain ⟨hc, hs, hp, hcr⟩ := h
  have hpay : 0 ≤ Int.fdiv sys.st.categoryPot (ROUNDS_PER_CATEGORY : Int) :=
    fdiv_nonneg_of_nonneg hp (by decide)
  unfold adminResolveRound
  by_cases h1 : sys.st.phase ≠ "CATEGORY"
  · rw [if_pos h1]
    exact ⟨hc, hs, hp, hcr⟩
  · rw [if_neg h1]
    by_cases h2 : isRoundResolved sys.st = true
    · rw [if_pos h2]
      exact ⟨hc, hs, hp, hcr⟩
    · rw [if_neg h2]
      dsimp only
      split
      · exact resolveTie_inv _ _ _ _ _ (add_nonneg hpay hcr) ⟨hc, hs, hp, hcr⟩
      · exact resolveSingle_inv _ _ _ _ _ _ hpay (add_nonneg hpay hcr) ⟨hc, hs, hp, hcr⟩

theorem coinsNonneg_undoFold (m : List (String × Int)) :
    ∀ ts : List Team, coinsNonneg ts →
      coinsNonneg (m.foldl (fun acc p =>
        if hasTeam acc p.1 then updateTeam acc p.1 (fun t => { t with coins := max 0 p.2 })
        else acc) ts) := by
  induction m with
  | nil => exact fun ts h => h
  | cons p m ih =>
      intro ts h
      simp only [List.foldl_cons]
      by_cases hm : hasTeam ts p.1 = true
      · rw [if_pos hm]
        exact ih _ (coinsNonneg_updateTeam _ _ _ (fun t _ => le_max_left 0 p.2) h)
      · rw [if_neg hm]
        exact ih _ h

theorem adminRoundUndo_inv (sys : Sys) (coinMap : Option (List (String × Int)))
    (carrySnap : Option Int) (h : LedgerInv sys) :
    LedgerInv (adminRoundUndo sys coinMap carrySnap) := by
  obtain ⟨hc, hs, hp, hcr⟩ := h
  unfold adminRoundUndo
  by_cases h1 : sys.st.phase ≠ "CATEGORY"
  · rw [if_pos h1]
    exact ⟨hc, hs, hp, hcr⟩
  · rw [if_neg h1]
    by_cases h2 : ¬ isRoundResolved sys.st = true
    · rw [if_pos h2]
      exact ⟨hc, hs, hp, hcr⟩
    · rw [if_neg h2]
      dsimp only
      refine ⟨?_, ?_, ?_, ?_⟩
      · cases coinMap with
        | none => exact hc
        | some m => exact coinsNonneg_undoFold m sys.teams hc
      · intro q hq
        rw [(markRoundResolved_ledger _ _).1] at hq
        exact hs q hq
      · rw [(markRoundResolved_ledger _ _).2.1]
        exact hp
      · rw [(markRoundResolved_ledger _ _).2.2]
        cases carrySnap with
        | none => exact hcr
        | some c => exact le_max_left 0 c

theorem adminElchConfirm_inv (sys : Sys) (teamId : Option String) (now : Nat)
    (h : LedgerInv sys) : LedgerInv (adminElchConfirm sys teamId now) := by
  obtain ⟨hc, hs, hp, hcr⟩ := h
  unfold adminElchConfirm
  try dsimp only
  repeat' split
  all_goals first
    | exact ⟨hc, hs, hp, hcr⟩
    | exact adminResolveRound_inv _ _ _ _ ⟨hc, hs, hp, hcr⟩

theorem stepPreservesInv (sys : Sys) (op : Op) (hok : okOp op = true) (h : LedgerInv sys) :
    LedgerInv (step sys op) := by
  cases op with
  | teamJoin id name avatar now => exact teamJoin_inv sys id name avatar now h
  | teamSetStake id stake uj => exact teamSetStake_inv sys id stake uj h
  | teamSubmit category id payload now =>
      exact ledgerOf_inv _ _ (teamSubmit_ledger sys category id payload now) h
  | adminTeamUpdate id coins qj nm av =>
      refine adminTeamUpdate_inv sys id coins qj nm av ?_ h
      intro c hceq
      subst hceq
      exact of_decide_eq_true hok
  | adminTeamKick id => exact adminTeamKick_inv sys id h
  | adminStartCategory category =>
      exact ledgerOf_inv _ _ (clearFx_ledger _) (adminStartCategory_inv sys category h)
  | adminSetTeamLimit limit => exact ledgerOf_inv _ _ (adminSetTeamLimit_ledger sys limit) h
  | adminLockStakes => exact adminLockStakes_inv sys h
  | adminResolveRound w ws now => exact adminResolveRound_inv sys w ws now h
  | adminRoundEnd => exact ledgerOf_inv _ _ (adminRoundEnd_ledger sys) h
  | adminRoundUndo cm cs => exact adminRoundUndo_inv sys cm cs h
  | adminRoundNext =>
      exact ledgerOf_inv _ _ (clearFx_ledger _) (ledgerOf_inv _ _ (adminRoundNext_ledger sys) h)
  | adminRoundPrev =>
      exact ledgerOf_inv _ _ (clearFx_ledger _) (ledgerOf_inv _ _ (adminRoundPrev_ledger sys) h)
  | adminFinishCategory =>
      exact ledgerOf_inv _ _ (clearFx_ledger _) (adminFinishCategory_inv sys h)
  | adminGotoLobby => exact adminGotoLobby_inv sys h
  | adminTimerStart seconds now =>
      exact ledgerOf_inv _ _ (adminTimerStart_ledger sys seconds now) h
  | adminTimerStop now => exact ledgerOf_inv _ _ (adminTimerStop_ledger sys now) h
  | adminTimerReset => exact ledgerOf_inv _ _ (adminTimerReset_ledger sys) h
  | adminTimerResume now => exact ledgerOf_inv _ _ (adminTimerResume_ledger sys now) h
  | adminElchDraw => exact ledgerOf_inv _ _ (adminElchDraw_ledger sys) h
  | adminElchSetLock locked => exact ledgerOf_inv _ _ (adminElchSetLock_ledger sys locked) h
  | adminElchClearBuzz => exact ledgerOf_inv _ _ (adminElchClearBuzz_ledger sys) h
  | adminElchConfirm teamId now => exact adminElchConfirm_inv sys teamId now h
  | adminElchUnlock => exact ledgerOf_inv _ _ (adminElchUnlock_ledger sys) h
  | adminRaceSet mode => exact ledgerOf_inv _ _ (adminRaceSet_ledger sys mode) h
  | adminResetAll => exact adminResetAll_inv sys
  | timerTick now => exact ledgerOf_inv _ _ (timerTick_ledger sys now) h
  | elchAutoUnlockTick now => exact ledgerOf_inv _ _ (elchAutoUnlockTick_ledger sys now) h

theorem runPreservesInv (ops : List Op) : ∀ sys : Sys, (∀ op ∈ ops, okOp op = true) →
    LedgerInv sys → LedgerInv (run sys ops) := by
  induction ops with
  | nil => exact fun sys _ h => h
  | cons op ops ih =>
      intro sys hok h
      show LedgerInv (run (step sys op) ops)
      exact ih _ (fun o ho => hok o (List.mem_cons_of_mem op ho))
        (stepPreservesInv sys op (hok op (List.mem_cons_self op ops)) h)

theorem initSys_ledger_inv : LedgerInv initSys :=
  ⟨fun t ht => absurd ht (List.not_mem_nil t),
   fun p hp => absurd hp (List.not_mem_nil p), le_refl 0, le_refl 0⟩

/-- C6: every team's coin balance is non-negative in every state reachable
from the initial state by a sequence of engine commands, PROVIDED no
`adminTeamUpdate` in the sequence carries a negative `coins` patch (the
`okOp` side condition): every debiting operation (`adminLockStakes`,
`adminRoundUndo`, stake storage, resolution payouts) clamps or keeps
balances at `≥ 0`, but `adminTeamUpdate` writes the admin-supplied coin
value unclamped, so the unrestricted claim fails (see the counterexample). -/
theorem C6_coins_nonneg (ops : List Op) (hok : ∀ op ∈ ops, okOp op = true) :
    ∀ t ∈ (run initSys ops).teams, 0 ≤ t.coins :=
  fun t ht => (runPreservesInv ops initSys hok initSys_ledger_inv).1 t ht

/-- C6 counterexample: the command surface includes `adminTeamUpdate`, and a
coins patch of `-5` is stored verbatim (`t.coins = patch.coins`, no clamp),
so the reachable state after a join and that update has a team with a
negative balance. -/
theorem C6_coins_counterexample :
    ((run initSys [Op.teamJoin "A" none none 0,
        Op.adminTeamUpdate "A" (some (-5)) none none none]).teams.map
      (fun t => t.coins)) = [-5] := by decide

theorem C6_coins_nonneg_witness :
    (∀ op ∈ [Op.teamJoin "A" none none 0, Op.teamSetStake "A" 6 false, Op.adminLockStakes],
        okOp op = true) ∧
      ∀ t ∈ (run initSys [Op.teamJoin "A" none none 0, Op.teamSetStake "A" 6 false,
          Op.adminLockStakes]).teams, 0 ≤ t.coins :=
  ⟨by decide, C6_coins_nonneg _ (by decide)⟩

end CozyQuiz
